import Mathlib

/-!
Verification development for the NextNovel backend (`backend/novels/views.py`).

The Python module is shallowly embedded: the relational store (Django ORM
models) becomes a record of lists, each HTTP handler becomes a function from
the store and the upstream AI responses to the new store and an outcome, and
Python's `json.loads` / `json.dumps` (used to round-trip the dialog state
through `Novel.prompt`) become an executable JSON serializer and parser over
an inductive JSON value type.

JSON numbers are modelled as integers (the dialog-state blobs are treated as
opaque structured values; no claim depends on float formatting).
-/

/-- JSON values, as produced by Python's `json` module on the AI responses.
Objects keep their key order, as Python dicts do. -/
inductive Json where
  | null : Json
  | bool (b : Bool) : Json
  | num (n : Int) : Json
  | str (s : String) : Json
  | arr (elems : List Json) : Json
  | obj (fields : List (String × Json)) : Json

/-! ### Serialization (`json.dumps`, default separators) -/

/-- Digit character for a value below ten. -/
def digitChar (n : Nat) : Char := Char.ofNat (48 + n)

/-- Decimal digits of a natural number, most significant first.
Fuel-based so that it reduces definitionally; `natToDigits` supplies `n + 1`
fuel, which is always enough since the argument shrinks by a factor of ten. -/
def natToDigitsAux : Nat → Nat → List Char → List Char
  | 0, _, acc => acc
  | fuel + 1, n, acc =>
    if n < 10 then digitChar n :: acc
    else natToDigitsAux fuel (n / 10) (digitChar (n % 10) :: acc)

/-- Decimal representation of a natural number. -/
def natToDigits (n : Nat) : List Char := natToDigitsAux (n + 1) n []

/-- Decimal representation of an integer, as `json.dumps` prints it. -/
def dumpInt (i : Int) : List Char :=
  if i < 0 then '-' :: natToDigits i.natAbs else natToDigits i.natAbs

/-- JSON string escaping for one character (quote, backslash and the common
control characters; all other characters are emitted as-is). -/
def escChar (c : Char) : List Char :=
  if c = '\x22' then ['\x5c', '\x22']
  else if c = '\x5c' then ['\x5c', '\x5c']
  else if c = '\n' then ['\x5c', 'n']
  else if c = '\t' then ['\x5c', 't']
  else if c = '\r' then ['\x5c', 'r']
  else [c]

/-- Escape a whole character list. -/
def escList : List Char → List Char
  | [] => []
  | c :: cs => escChar c ++ escList cs

/-- A JSON string literal: quote, escaped body, quote. -/
def dumpStr (s : String) : List Char := '\x22' :: (escList s.toList ++ ['\x22'])

mutual
/-- Characters of `json.dumps` for a value (default separators `", "`, `": "`). -/
def dumpVal : Json → List Char
  | .null => 'n' :: ['u', 'l', 'l']
  | .bool true => 't' :: ['r', 'u', 'e']
  | .bool false => 'f' :: ['a', 'l', 's', 'e']
  | .num i => dumpInt i
  | .str s => dumpStr s
  | .arr [] => ['\x5b', '\x5d']
  | .arr (e :: es) => '\x5b' :: ((dumpVal e ++ dumpElemsRest es) ++ ['\x5d'])
  | .obj [] => ['\x7b', '\x7d']
  | .obj (f :: fs) => '\x7b' :: ((dumpField f ++ dumpFieldsRest fs) ++ ['\x7d'])

/-- Remaining array elements, each preceded by `", "`. -/
def dumpElemsRest : List Json → List Char
  | [] => []
  | e :: es => ',' :: ' ' :: (dumpVal e ++ dumpElemsRest es)

/-- One object field `"key": value`. -/
def dumpField : String × Json → List Char
  | (k, v) => dumpStr k ++ (':' :: ' ' :: dumpVal v)

/-- Remaining object fields, each preceded by `", "`. -/
def dumpFieldsRest : List (String × Json) → List Char
  | [] => []
  | f :: fs => ',' :: ' ' :: (dumpField f ++ dumpFieldsRest fs)
end

/-- `json.dumps` (default separators, as used throughout `views.py`). -/
def Json.dumps (j : Json) : String := ⟨dumpVal j⟩

/-! ### Parsing (`json.loads`) -/

/-- JSON whitespace. -/
def isWs (c : Char) : Bool := c = ' ' || c = '\n' || c = '\t' || c = '\r'

/-- Drop leading whitespace. -/
def skipWs : List Char → List Char
  | [] => []
  | c :: cs => if isWs c then skipWs cs else c :: cs

/-- ASCII digit test. -/
def isDigitCh (c : Char) : Bool := '0' ≤ c && c ≤ '9'

/-- Numeric value of a digit string (most significant first). -/
def digitsVal (cs : List Char) : Nat := cs.foldl (fun a c => 10 * a + (c.toNat - 48)) 0

/-- Parse an integer literal at the head of the input. -/
def parseNumFrom (cs : List Char) : Option (Json × List Char) :=
  match cs with
  | [] => none
  | c :: rest =>
    if c = '-' then
      let ds := rest.takeWhile isDigitCh
      if ds.isEmpty then none
      else some (.num (-(digitsVal ds : Int)), rest.dropWhile isDigitCh)
    else
      let ds := (c :: rest).takeWhile isDigitCh
      if ds.isEmpty then none
      else some (.num (digitsVal ds), (c :: rest).dropWhile isDigitCh)

/-- Undo `escChar` for the character following a backslash. -/
def unescChar (c : Char) : Option Char :=
  if c = '\x22' then some '\x22'
  else if c = '\x5c' then some '\x5c'
  else if c = 'n' then some '\n'
  else if c = 't' then some '\t'
  else if c = 'r' then some '\r'
  else none

/-- Parse a string body up to the closing quote, unescaping as it goes.
`acc` holds the characters read so far, in reverse. -/
def parseStrBody : List Char → List Char → Option (String × List Char)
  | _, [] => none
  | acc, c :: rest =>
    if c = '\x22' then some (⟨acc.reverse⟩, rest)
    else if c = '\x5c' then
      match rest with
      | [] => none
      | d :: rest2 =>
        match unescChar d with
        | none => none
        | some e => parseStrBody (e :: acc) rest2
    else parseStrBody (c :: acc) rest

mutual
/-- Recursive-descent JSON value parser.  The fuel only bounds nesting and
element counts; `Json.loads` supplies more than enough. -/
def parseVal : Nat → List Char → Option (Json × List Char)
  | 0, _ => none
  | fuel + 1, cs =>
    match skipWs cs with
    | [] => none
    | c :: r =>
      if c = 'n' then
        match r with
        | 'u' :: 'l' :: 'l' :: r2 => some (.null, r2)
        | _ => none
      else if c = 't' then
        match r with
        | 'r' :: 'u' :: 'e' :: r2 => some (.bool true, r2)
        | _ => none
      else if c = 'f' then
        match r with
        | 'a' :: 'l' :: 's' :: 'e' :: r2 => some (.bool false, r2)
        | _ => none
      else if c = '\x22' then (parseStrBody [] r).map (fun p => (.str p.1, p.2))
      else if c = '\x5b' then parseArrTail fuel (skipWs r)
      else if c = '\x7b' then parseObjTail fuel (skipWs r)
      else parseNumFrom (c :: r)

/-- After `[` (whitespace skipped): either an empty array or its elements. -/
def parseArrTail : Nat → List Char → Option (Json × List Char)
  | _, [] => none
  | fuel, c :: r =>
    if c = '\x5d' then some (.arr [], r)
    else (parseElems fuel (c :: r)).map (fun p => (.arr p.1, p.2))

/-- After `{` (whitespace skipped): either an empty object or its fields. -/
def parseObjTail : Nat → List Char → Option (Json × List Char)
  | _, [] => none
  | fuel, c :: r =>
    if c = '\x7d' then some (.obj [], r)
    else (parseFields fuel (c :: r)).map (fun p => (.obj p.1, p.2))

/-- One or more comma-separated array elements followed by `]`. -/
def parseElems : Nat → List Char → Option (List Json × List Char)
  | 0, _ => none
  | fuel + 1, cs =>
    match parseVal fuel cs with
    | none => none
    | some (v, r) =>
      match skipWs r with
      | [] => none
      | c :: r2 =>
        if c = ',' then (parseElems fuel (skipWs r2)).map (fun p => (v :: p.1, p.2))
        else if c = '\x5d' then some ([v], r2)
        else none

/-- One or more comma-separated object fields followed by `}`. -/
def parseFields : Nat → List Char → Option (List (String × Json) × List Char)
  | 0, _ => none
  | fuel + 1, cs =>
    match cs with
    | '\x22' :: r =>
      match parseStrBody [] r with
      | none => none
      | some (k, r1) =>
        match skipWs r1 with
        | ':' :: r2 =>
          match parseVal fuel (skipWs r2) with
          | none => none
          | some (v, r3) =>
            match skipWs r3 with
            | [] => none
            | c :: r4 =>
              if c = ',' then (parseFields fuel (skipWs r4)).map (fun p => ((k, v) :: p.1, p.2))
              else if c = '\x7d' then some ([(k, v)], r4)
              else none
        | _ => none
    | _ => none
end

/-- `json.loads`: parse a whole string (trailing whitespace allowed),
returning `none` where Python raises `json.JSONDecodeError`. -/
def Json.loads (s : String) : Option Json :=
  match parseVal (2 * s.length + 2) s.toList with
  | some (j, rest) => if (skipWs rest).isEmpty then some j else none
  | none => none

/-- `rest` does not begin with a digit (so a number literal before it parses
exactly up to the boundary). -/
def noDigitHead : List Char → Bool
  | [] => true
  | c :: _ => !isDigitCh c

mutual
/-- Fuel requirement of `parseVal` on serialized output. -/
def jsizeV : Json → Nat
  | .arr es => 1 + jsizeE es
  | .obj fs => 1 + jsizeF fs
  | _ => 1

/-- Fuel requirement of `parseElems` on serialized output. -/
def jsizeE : List Json → Nat
  | [] => 1
  | e :: es => 1 + jsizeV e + jsizeE es

/-- Fuel requirement of `parseFields` on serialized output. -/
def jsizeF : List (String × Json) → Nat
  | [] => 1
  | (_, v) :: fs => 1 + jsizeV v + jsizeF fs
end

/-! ### Python-side JSON dictionary operations -/

/-- Exceptions a handler can raise (uncaught Python exceptions surface as
server errors; `RequestAIServerError` comes from `nextnovel.exceptions`). -/
inductive Exc where
  | requestAIServerError
  | jsonDecodeError
  | keyError
  | indexError
  | typeError
  | attributeError
  | doesNotExist
  | validationError
  | permissionDenied
  | http404
deriving DecidableEq, Repr

/-- First binding of a key in an ordered association list. -/
def lookupKvs : List (String × Json) → String → Option Json
  | [], _ => none
  | (k, v) :: rest, key => if k = key then some v else lookupKvs rest key

/-- Remove the first binding of a key. -/
def eraseKvs : List (String × Json) → String → List (String × Json)
  | [], _ => []
  | (k, v) :: rest, key => if k = key then rest else (k, v) :: eraseKvs rest key

/-- Python `d.get(key)`: `none` when the key is absent; raises
`AttributeError` when the value is not a dict. -/
def Json.dictGetOpt : Json → String → Except Exc (Option Json)
  | .obj kvs, key => .ok (lookupKvs kvs key)
  | _, _ => .error .attributeError

/-- Python `d.get(key)` where the result is fed straight to `json.dumps`
(a missing key becomes `None`, serialized as `null`). -/
def Json.dictGetOrNull (j : Json) (key : String) : Except Exc Json :=
  (Json.dictGetOpt j key).map (fun o => o.getD .null)

/-- Python `d.pop(key)`: the value and the dict without that key; raises
`KeyError` when absent, `AttributeError` when not a dict. -/
def Json.dictPop : Json → String → Except Exc (Json × Json)
  | .obj kvs, key =>
    match lookupKvs kvs key with
    | some v => .ok (v, .obj (eraseKvs kvs key))
    | none => .error .keyError
  | _, _ => .error .attributeError

/-! ### Data model (`novels/models.py` is summarized by the spec §3;
field names follow the source) -/

/-- `Novel.Status`: DRAFT or FINISHED. -/
inductive NovelStatus where
  | draft
  | finished
deriving DecidableEq, Repr

/-- One authored work.  `prompt` is the serialized AI dialog state (a JSON
string); cover fields record saved file names. -/
structure Novel where
  id : Nat
  author : Nat
  genre : Nat
  status : NovelStatus
  prompt : String
  cover_img : Option String
  original_cover_img : Option String
deriving DecidableEq, Repr

/-- One step of a story.  Text fields hold the JSON values the handlers
assign to them (`none` until filled). -/
structure NovelContent where
  novel_id : Nat
  step : Nat
  content : Option Json
  chosen_query : Option Json
  query1 : Option Json
  query2 : Option Json
  query3 : Option Json

/-- An uploaded image attached to a step; `idx` is its position in the
submitted order, `caption` is assigned after AI captioning. -/
structure NovelContentImage where
  id : Nat
  novel_id : Nat
  step : Nat
  idx : Nat
  caption : Option Json

/-- Per-novel aggregate counters (`NovelStats`). -/
structure NovelStats where
  novel_id : Nat
  hit_count : Int
  like_count : Int
  comment_count : Int
deriving DecidableEq, Repr

/-- A like row: its existence is the toggle state. -/
structure NovelLike where
  novel_id : Nat
  user_id : Nat
deriving DecidableEq, Repr

/-- A comment row. -/
structure NovelComment where
  id : Nat
  novel_id : Nat
  author : Nat
  body : String
deriving DecidableEq, Repr

/-- The relational store. -/
structure DB where
  novels : List Novel
  contents : List NovelContent
  images : List NovelContentImage
  stats : List NovelStats
  likes : List NovelLike
  comments : List NovelComment

/-- `Novel.objects.get(pk=...)` / queryset row lookup by primary key. -/
def DB.findNovel (db : DB) (novel_id : Nat) : Option Novel :=
  db.novels.find? (fun n => n.id == novel_id)

/-- `NovelContent.objects.get(novel=..., step=...)`. -/
def DB.findContent (db : DB) (novel_id step : Nat) : Option NovelContent :=
  db.contents.find? (fun c => c.novel_id == novel_id && c.step == step)

/-- Replace the novel row with the same id (Django `save()` on an existing
instance). -/
def DB.updateNovel (db : DB) (n : Novel) : DB :=
  { db with novels := db.novels.map (fun m => if m.id == n.id then n else m) }

/-- Replace the content row with the same (novel, step) key. -/
def DB.updateContent (db : DB) (c : NovelContent) : DB :=
  { db with contents := db.contents.map (fun x =>
      if x.novel_id == c.novel_id && x.step == c.step then c else x) }

/-- `NovelContent.objects.create(...)` appends a row. -/
def DB.insertContent (db : DB) (c : NovelContent) : DB :=
  { db with contents := db.contents ++ [c] }

/-- `image.save()` replaces the image row with the same id. -/
def DB.updateImage (db : DB) (im : NovelContentImage) : DB :=
  { db with images := db.images.map (fun x => if x.id == im.id then im else x) }

/-- `bulk_update(images, ["caption"])`: replace every row whose id occurs in
the updated batch. -/
def DB.updateImages (db : DB) (upd : List NovelContentImage) : DB :=
  { db with images := db.images.map (fun x =>
      (upd.find? (fun u => u.id == x.id)).getD x) }

/-- Atomic `F('...') + d` counter update on a novel's stats row. -/
def DB.bumpLike (db : DB) (novel_id : Nat) (d : Int) : DB :=
  { db with stats := db.stats.map (fun s =>
      if s.novel_id == novel_id then { s with like_count := s.like_count + d } else s) }

/-- Atomic comment-count update. -/
def DB.bumpComment (db : DB) (novel_id : Nat) (d : Int) : DB :=
  { db with stats := db.stats.map (fun s =>
      if s.novel_id == novel_id then { s with comment_count := s.comment_count + d } else s) }

/-- Atomic hit-count update. -/
def DB.bumpHit (db : DB) (novel_id : Nat) (d : Int) : DB :=
  { db with stats := db.stats.map (fun s =>
      if s.novel_id == novel_id then { s with hit_count := s.hit_count + d } else s) }

/-- Fresh primary key for a new novel. -/
def DB.nextNovelId (db : DB) : Nat := (db.novels.foldr (fun n a => max n.id a) 0) + 1

/-- Fresh primary key for a new image. -/
def DB.nextImageId (db : DB) : Nat := (db.images.foldr (fun n a => max n.id a) 0) + 1

/-- Fresh primary key for a new comment. -/
def DB.nextCommentId (db : DB) : Nat := (db.comments.foldr (fun n a => max n.id a) 0) + 1

/-! ### Upstream AI Gateway responses and handler outcomes -/

/-- One upstream HTTP response: its status code and `response.json()`. -/
structure AiResponse where
  status_code : Nat
  json : Json

/-- Outcome of a handler: a DRF `Response(data, status)`, a
`Response({}, status)` with an empty body, or an uncaught exception. -/
inductive HOut (α : Type) where
  | resp (statusCode : Nat) (data : α)
  | respEmpty (statusCode : Nat)
  | exn (e : Exc)

/-! ### Module-level helpers (`views.py` lines 41-65, 93-97) -/

/-- `retrieve_question_from_ai_json`: posts the dialog history to the
question endpoint; raises `RequestAIServerError` on a non-200 status,
otherwise returns `response.json()`. -/
def retrieve_question_from_ai_json (resp : AiResponse) : Except Exc Json :=
  if resp.status_code ≠ 200 then .error .requestAIServerError else .ok resp.json

/-- `novel_content_with_query`: copies `query1`/`query2`/`query3` out of the
question response (dict `.get`, so a missing key stores null/None). -/
def novel_content_with_query (response : Json) (novel_content : NovelContent) :
    Except Exc NovelContent := do
  let q1 ← Json.dictGetOpt response "query1"
  let q2 ← Json.dictGetOpt response "query2"
  let q3 ← Json.dictGetOpt response "query3"
  .ok { novel_content with query1 := q1, query2 := q2, query3 := q3 }

/-- `get_next_novel_content`: `NovelContent.objects.create(step=step+1, novel=novel)`. -/
def get_next_novel_content (novel_content : NovelContent) (novel_id : Nat) : NovelContent :=
  { novel_id := novel_id, step := novel_content.step + 1, content := none,
    chosen_query := none, query1 := none, query2 := none, query3 := none }

/-- `novel_hit`: increments the hit counter unless the viewer is anonymous. -/
def novel_hit (db : DB) (novel_id : Nat) (is_anonymous : Bool) : DB :=
  if is_anonymous then db else DB.bumpHit db novel_id 1

/-! ### Query surface (`views.py` lines 68-122, 202-215) -/

/-- `NovelRecAPI` base queryset: `Novel.objects.filter(status=FINISHED)`.
The endpoint returns five rows of this queryset in random order; whatever
the ordering, every returned row belongs to this list. -/
def NovelRecAPI.queryset (db : DB) : List Novel :=
  db.novels.filter (fun n => n.status == NovelStatus.finished)

/-- `NovelPreviewAPI` queryset: also filtered to FINISHED. -/
def NovelPreviewAPI.queryset (db : DB) : List Novel :=
  db.novels.filter (fun n => n.status == NovelStatus.finished)

/-- `Genre.get_value_from_label`.  Modelled from the spec: `models.py` is
not in `src/`; the label/value pairs follow the `genre_dict` of
`NovelStartAPI.post` (1 romance, 2 fantasy, 3 mystery, 4 SF, 5 free). -/
def Genre.get_value_from_label (label : String) : Option Nat :=
  if label = "로맨스" then some 1
  else if label = "판타지" then some 2
  else if label = "추리" then some 3
  else if label = "SF" then some 4
  else if label = "자유" then some 5
  else none

/-- `NovelListAPI.get_queryset`: FINISHED novels, optionally narrowed by a
recognized genre label (unrecognized labels are ignored).  The search
filter only further narrows the list and is not modelled. -/
def NovelListAPI.get_queryset (db : DB) (genre_param : Option String) : List Novel :=
  let queryset := db.novels.filter (fun n => n.status == NovelStatus.finished)
  match genre_param with
  | none => queryset
  | some g =>
    match Genre.get_value_from_label g with
    | none => queryset
    | some v => queryset.filter (fun n => n.genre == v)

/-- `NovelDetailAPI` object lookup: its queryset is `Novel.objects.all()`
with no status filter (`views.py` line 101). -/
def NovelDetailAPI.get_object (db : DB) (novel_id : Nat) : Option Novel :=
  DB.findNovel db novel_id

/-! ### Social surface (`views.py` lines 125-193) -/

/-- `NovelLikeAPI.perform_create`: toggles the like row and the counter,
returning `True` when a row existed (and was deleted). -/
def NovelLikeAPI.perform_create (db : DB) (novel_id user_id : Nat) :
    Except Exc (DB × Bool) :=
  match DB.findNovel db novel_id with
  | none => .error .doesNotExist
  | some _novel =>
    let obj := db.likes.filter (fun l => l.novel_id == novel_id && l.user_id == user_id)
    if !obj.isEmpty then
      let db1 : DB :=
        { db with likes := db.likes.filter (fun l =>
            !(l.novel_id == novel_id && l.user_id == user_id)) }
      .ok (DB.bumpLike db1 novel_id (-1), true)
    else
      let db1 : DB := { db with likes := db.likes ++ [⟨novel_id, user_id⟩] }
      .ok (DB.bumpLike db1 novel_id 1, false)

/-- `NovelLikeAPI.create`: 201 when `perform_create` returned `True`
(the row was deleted), 204 otherwise (the row was created). -/
def NovelLikeAPI.create (db : DB) (novel_id user_id : Nat) : DB × HOut Unit :=
  match NovelLikeAPI.perform_create db novel_id user_id with
  | .error e => (db, .exn e)
  | .ok (db1, is_created) =>
    if is_created then (db1, .resp 201 ()) else (db1, .respEmpty 204)

/-- `NovelCommentAPI.perform_create`: bumps the counter, then saves the
comment row. -/
def NovelCommentAPI.perform_create (db : DB) (novel_id author : Nat) (body : String) :
    DB × HOut Unit :=
  match DB.findNovel db novel_id with
  | none => (db, .exn .doesNotExist)
  | some _ =>
    let db1 := DB.bumpComment db novel_id 1
    let db2 : DB :=
      { db1 with comments := db1.comments ++
        [{ id := DB.nextCommentId db, novel_id := novel_id, author := author, body := body }] }
    (db2, .resp 201 ())

/-- `NovelCommentDeleteAPI.destroy`: deletes the row, then decrements the
counter; 204 on success. -/
def NovelCommentDeleteAPI.destroy (db : DB) (comment_id : Nat) : DB × HOut Unit :=
  match db.comments.find? (fun c => c.id == comment_id) with
  | none => (db, .exn .http404)
  | some c =>
    let db1 : DB := { db with comments := db.comments.filter (fun x => !(x.id == comment_id)) }
    (DB.bumpComment db1 c.novel_id (-1), .respEmpty 204)

/-! ### Workflow handlers (`views.py` lines 218-451).
All are embedded on the real-gateway path (`DEV != 'TRUE'`; with `DEV`
set, the source leaves the response variables undefined — a latent defect
noted in the spec and outside every claim). -/

/-- A multipart Start request: author, genre tag, and the number of
uploaded images. -/
structure StartRequest where
  author : Nat
  genre : Nat
  image_count : Nat

/-- Data of a successful Start response. -/
structure StartResult where
  id : Nat
  step : Nat
  story : Json
  captions : List Json
  genre_label : Option String

/-- Fresh image rows for a step, in submitted order (count, then running
index). -/
def mkImages (novel_id first_id step : Nat) : Nat → Nat → List NovelContentImage
  | 0, _ => []
  | k + 1, i =>
    ({ id := first_id + i, novel_id := novel_id, step := step, idx := i, caption := none }
      : NovelContentImage) :: mkImages novel_id first_id step k (i + 1)

/-- Modelled from the spec: `NovelStartSerializer.save(author=...)`
(`novels/serializers.py` is not in `src/`).  Persists `Novel` (status
DRAFT, empty prompt) with its `NovelStats` row, `NovelContent(step=1)`,
and one image row per uploaded file in submitted order, returning the
three as the view unpacks them. -/
def NovelStartSerializer.save (db : DB) (req : StartRequest) :
    DB × Novel × NovelContent × List NovelContentImage :=
  let nid := DB.nextNovelId db
  let novel : Novel :=
    { id := nid, author := req.author, genre := req.genre, status := .draft, prompt := "",
      cover_img := none, original_cover_img := none }
  let nc : NovelContent :=
    { novel_id := nid, step := 1, content := none, chosen_query := none, query1 := none,
      query2 := none, query3 := none }
  let imgs := mkImages nid (DB.nextImageId db) 1 req.image_count 0
  let db1 : DB := { db with
    novels := db.novels ++ [novel],
    contents := db.contents ++ [nc],
    images := db.images ++ imgs,
    stats := db.stats ++
      [{ novel_id := nid, hit_count := 0, like_count := 0, comment_count := 0 }] }
  (db1, novel, nc, imgs)

/-- The `for i in range(len(images)): image.caption = caption[i]` loop:
positional assignment, `IndexError` when the caption list is shorter.
(`bulk_update` persists only after the loop finishes, so on error nothing
is written.) -/
def assignCaptions : List NovelContentImage → List Json → Except Exc (List NovelContentImage)
  | [], _ => .ok []
  | _ :: _, [] => .error .indexError
  | img :: rest, c :: cs =>
    (assignCaptions rest cs).map (fun l => { img with caption := some c } :: l)

/-- The genre label table inlined in `NovelStartAPI.post`. -/
def genre_dict (g : Nat) : Option String :=
  if g = 1 then some "로맨스"
  else if g = 4 then some "SF"
  else if g = 2 then some "판타지"
  else if g = 3 then some "추리"
  else if g = 5 then some "자유"
  else none

/-- `NovelStartAPI.post` (real-gateway path): serializer save, the start
call, the question call, captions, step-1 content, pre-populated step 2,
and `novel.prompt := json.dumps(question response)`. -/
def NovelStartAPI.post (db : DB) (demo_mode demo_user : Bool) (req : StartRequest)
    (start_resp question_resp : AiResponse) : DB × HOut StartResult :=
  if demo_mode && !demo_user then (db, .respEmpty 500) else
  match NovelStartSerializer.save db req with
  | (db1, novel, novel_content, images) =>
  if start_resp.status_code ≠ 200 then (db1, .exn .requestAIServerError)
  else
  match Json.dictPop start_resp.json "korean_answer" with
  | .error e => (db1, .exn e)
  | .ok (story, rj1) =>
  match Json.dictPop rj1 "dialog_history" with
  | .error e => (db1, .exn e)
  | .ok (_dialog_history, rj2) =>
  match retrieve_question_from_ai_json question_resp with
  | .error e => (db1, .exn e)
  | .ok response2_json =>
  match Json.dictPop rj2 "caption" with
  | .error e => (db1, .exn e)
  | .ok (caption, _rj3) =>
  match caption with
  | .arr caps =>
    (match assignCaptions images caps with
     | .error e => (db1, .exn e)
     | .ok images2 =>
       let db2 := DB.updateImages db1 images2
       let nc2 := { novel_content with content := some story }
       let db3 := DB.updateContent db2 nc2
       let next0 := get_next_novel_content nc2 novel.id
       let db4 := DB.insertContent db3 next0
       match novel_content_with_query response2_json next0 with
       | .error e => (db4, .exn e)
       | .ok next1 =>
         let db5 := DB.updateContent db4 next1
         let novel2 := { novel with prompt := Json.dumps response2_json }
         let db6 := DB.updateNovel db5 novel2
         (db6, .resp 200
           { id := novel.id, step := 1, story := story, captions := caps.take req.image_count,
             genre_label := genre_dict novel.genre }))
  | _ => (db1, .exn .typeError)

/-- A Continue request: target novel and step, the chosen query, plus one
uploaded image. -/
structure ContinueRequest where
  novel_id : Nat
  step : Nat
  selected_query : Json

/-- Data of a successful Continue response. -/
structure ContinueResult where
  id : Nat
  caption : Json
  step : Nat
  story : Json

/-- Modelled from the spec: `NovelContinueSerializer.save()`
(`novels/serializers.py` is not in `src/`).  Validates that the novel and
the target step exist, persists the one uploaded image attached to that
step, and returns `(novel, novel_content, image, selected_query)` as the
view unpacks them. -/
def NovelContinueSerializer.save (db : DB) (req : ContinueRequest) :
    Except Exc (DB × Novel × NovelContent × NovelContentImage) :=
  match DB.findNovel db req.novel_id with
  | none => .error .validationError
  | some novel =>
  match DB.findContent db req.novel_id req.step with
  | none => .error .validationError
  | some nc =>
    let img : NovelContentImage :=
      { id := DB.nextImageId db, novel_id := req.novel_id, step := req.step, idx := 0,
        caption := none }
    .ok ({ db with images := db.images ++ [img] }, novel, nc, img)

/-- `NovelContinueAPI.post` (real-gateway path): parses `novel.prompt`,
posts to the sequence endpoint (non-200 becomes a 408 response), then the
question endpoint, persists caption/story/chosen query, creates the next
step with the three new queries, and stores the serialized question
response in `novel.prompt`. -/
def NovelContinueAPI.post (db : DB) (req : ContinueRequest)
    (sequence_resp question_resp : AiResponse) : DB × HOut ContinueResult :=
  match NovelContinueSerializer.save db req with
  | .error e => (db, .exn e)
  | .ok (db1, novel, novel_content, image) =>
  match Json.loads novel.prompt with
  | none => (db1, .exn .jsonDecodeError)
  | some dialog_history =>
  match Json.dictGetOrNull dialog_history "dialog_history" with
  | .error e => (db1, .exn e)
  | .ok _sent =>
  if sequence_resp.status_code ≠ 200 then (db1, .respEmpty 408)
  else
  match Json.dictPop sequence_resp.json "caption" with
  | .error e => (db1, .exn e)
  | .ok (caption, rj1) =>
  match Json.dictPop rj1 "korean_answer" with
  | .error e => (db1, .exn e)
  | .ok (story, rj2) =>
  match Json.dictPop rj2 "dialog_history" with
  | .error e => (db1, .exn e)
  | .ok (_dh, _rj3) =>
  match retrieve_question_from_ai_json question_resp with
  | .error e => (db1, .exn e)
  | .ok response2_json =>
    let image2 := { image with caption := some caption }
    let db2 := DB.updateImage db1 image2
    let novel2 := { novel with prompt := Json.dumps response2_json }
    let db3 := DB.updateNovel db2 novel2
    let nc2 :=
      { novel_content with content := some story, chosen_query := some req.selected_query }
    let db4 := DB.updateContent db3 nc2
    let next0 := get_next_novel_content nc2 novel.id
    let db5 := DB.insertContent db4 next0
    match novel_content_with_query response2_json next0 with
    | .error e => (db5, .exn e)
    | .ok next1 =>
      let db6 := DB.updateContent db5 next1
      (db6, .resp 200 { id := novel.id, caption := caption, step := nc2.step, story := story })

/-- Data of a successful End response. -/
structure EndResult where
  id : Nat
  story : Option Json

/-- `NovelEndAPI.post` (real-gateway path): looks up the novel and step,
parses `novel.prompt`, posts its `dialog_history` member to the end
endpoint (non-200 raises), then re-serializes the parsed object back into
`novel.prompt` and overwrites the step's content with the closing text. -/
def NovelEndAPI.post (db : DB) (novel_id step : Nat) (end_resp : AiResponse) :
    DB × HOut EndResult :=
  match DB.findNovel db novel_id with
  | none => (db, .exn .validationError)
  | some novel =>
  match DB.findContent db novel_id step with
  | none => (db, .exn .doesNotExist)
  | some novel_content =>
  match Json.loads novel.prompt with
  | none => (db, .exn .jsonDecodeError)
  | some dialog_history =>
  match Json.dictGetOrNull dialog_history "dialog_history" with
  | .error e => (db, .exn e)
  | .ok _sent =>
  if end_resp.status_code ≠ 200 then (db, .exn .requestAIServerError)
  else
    let novel2 := { novel with prompt := Json.dumps dialog_history }
    let db1 := DB.updateNovel db novel2
    match Json.dictGetOpt end_resp.json "korean_answer" with
    | .error e => (db1, .exn e)
    | .ok answer =>
      let nc2 := { novel_content with content := answer }
      let db2 := DB.updateContent db1 nc2
      (db2, .resp 200 { id := novel.id, story := nc2.content })

/-- `NovelCoverImageAPI.post`: posts the image to the style endpoint
(non-200 raises) and saves the stylized and original cover files. -/
def NovelCoverImageAPI.post (db : DB) (novel_id : Nat) (image_resp : AiResponse) :
    DB × HOut Unit :=
  match DB.findNovel db novel_id with
  | none => (db, .exn .validationError)
  | some novel =>
    if image_resp.status_code ≠ 200 then (db, .exn .requestAIServerError)
    else
      let novel2 :=
        { novel with
          cover_img := some ("novel_cover_" ++ toString novel.id ++ ".png")
          original_cover_img := some "original.png" }
      (DB.updateNovel db novel2, .resp 200 ())

/-- `NovelCompleteAPI.post`: 404 on a missing novel; the `IsOwnerOrReadOnly`
permission (modelled from the spec: `nextnovel/permissions.py` is not in
`src/`) rejects non-authors; otherwise `serializer.save(status=FINISHED)`
sets the status unconditionally. -/
def NovelCompleteAPI.post (db : DB) (novel_id caller : Nat) : DB × HOut Unit :=
  match DB.findNovel db novel_id with
  | none => (db, .exn .http404)
  | some novel =>
    if novel.author ≠ caller then (db, .exn .permissionDenied)
    else (DB.updateNovel db { novel with status := .finished }, .resp 200 ())

/-- `novel.delete()`: removes the novel row and, cascading, every row that
belongs to it (`models.py` is not in `src/`; the exclusive-ownership
cascade is modelled from the spec). -/
def DB.deleteNovel (db : DB) (novel_id : Nat) : DB :=
  { novels := db.novels.filter (fun n => !(n.id == novel_id)),
    contents := db.contents.filter (fun c => !(c.novel_id == novel_id)),
    images := db.images.filter (fun im => !(im.novel_id == novel_id)),
    stats := db.stats.filter (fun s => !(s.novel_id == novel_id)),
    likes := db.likes.filter (fun l => !(l.novel_id == novel_id)),
    comments := db.comments.filter (fun c => !(c.novel_id == novel_id)) }

/-- `NovelDetailAPI` DELETE (`RetrieveDestroyAPIView`, `views.py` line 100):
`get_object` over the unfiltered queryset (404 on a missing novel), then the
`IsOwnerOrReadOnly` object-permission check — DELETE is not a safe method,
so the caller must be the author (modelled from the spec:
`nextnovel/permissions.py` is not in `src/`) — then `instance.delete()`. -/
def NovelDetailAPI.destroy (db : DB) (novel_id caller : Nat) : DB × HOut Unit :=
  match DB.findNovel db novel_id with
  | none => (db, .exn .http404)
  | some novel =>
    if novel.author ≠ caller then (db, .exn .permissionDenied)
    else (DB.deleteNovel db novel_id, .respEmpty 204)

/-! ### The operations exposed by this module, as one step relation -/

/-- Every store-mutating operation of `views.py`. -/
inductive Op where
  | like (novel_id user_id : Nat)
  | commentCreate (novel_id author : Nat) (body : String)
  | commentDelete (comment_id : Nat)
  | detailHit (novel_id : Nat) (is_anonymous : Bool)
  | novelDelete (novel_id caller : Nat)
  | startOp (demo_mode demo_user : Bool) (req : StartRequest) (r1 r2 : AiResponse)
  | continueOp (req : ContinueRequest) (r1 r2 : AiResponse)
  | endOp (novel_id step : Nat) (r : AiResponse)
  | completeOp (novel_id caller : Nat)
  | coverImageOp (novel_id : Nat) (r : AiResponse)

/-- The store after an operation (whatever its outcome: responses and
raised exceptions both leave their already-committed writes). -/
def applyOp (db : DB) : Op → DB
  | .like n u => (NovelLikeAPI.create db n u).1
  | .commentCreate n a b => (NovelCommentAPI.perform_create db n a b).1
  | .commentDelete c => (NovelCommentDeleteAPI.destroy db c).1
  | .detailHit n anon => novel_hit db n anon
  | .novelDelete n c => (NovelDetailAPI.destroy db n c).1
  | .startOp dm du req r1 r2 => (NovelStartAPI.post db dm du req r1 r2).1
  | .continueOp req r1 r2 => (NovelContinueAPI.post db req r1 r2).1
  | .endOp n s r => (NovelEndAPI.post db n s r).1
  | .completeOp n c => (NovelCompleteAPI.post db n c).1
  | .coverImageOp n r => (NovelCoverImageAPI.post db n r).1

/-! ### Observations on the store used by the claims -/

/-- Status of the novel with a given id. -/
def statusOf (db : DB) (novel_id : Nat) : Option NovelStatus :=
  (DB.findNovel db novel_id).map (fun n => n.status)

/-- Prompt of the novel with a given id. -/
def promptOf (db : DB) (novel_id : Nat) : Option String :=
  (DB.findNovel db novel_id).map (fun n => n.prompt)

/-- All content rows of a novel, in creation order. -/
def contentsOf (db : DB) (novel_id : Nat) : List NovelContent :=
  db.contents.filter (fun c => c.novel_id == novel_id)

/-- All image rows of a novel, in creation order. -/
def imagesOf (db : DB) (novel_id : Nat) : List NovelContentImage :=
  db.images.filter (fun im => im.novel_id == novel_id)

/-- Whether a like row exists for `(novel, user)`. -/
def likeRowExists (db : DB) (novel_id user_id : Nat) : Bool :=
  !(db.likes.filter (fun l => l.novel_id == novel_id && l.user_id == user_id)).isEmpty

/-- The like counter of a novel's stats row. -/
def likeCountOf (db : DB) (novel_id : Nat) : Option Int :=
  (db.stats.find? (fun s => s.novel_id == novel_id)).map (fun s => s.like_count)

/-! ### Concrete fixtures used by witnesses and counterexamples -/

/-- A draft novel used in concrete scenarios. -/
def novelA : Novel :=
  { id := 1, author := 5, genre := 2, status := .draft, prompt := "", cover_img := none,
    original_cover_img := none }

/-- A store holding one draft novel with zeroed stats. -/
def dbDraft : DB :=
  ⟨[novelA], [], [], [⟨1, 0, 0, 0⟩], [], []⟩

/-- A store holding one finished novel with zeroed stats. -/
def dbFinished : DB :=
  ⟨[{ novelA with status := .finished }], [], [], [⟨1, 0, 0, 0⟩], [], []⟩

/-- A question-endpoint payload offering three queries. -/
def qPayloadA : Json :=
  .obj [("query1", .str "Q1"), ("query2", .str "Q2"), ("query3", .str "Q3"),
    ("dialog_history", .arr [.str "h2"])]

/-- A start-endpoint payload with two captions. -/
def startPayloadA : Json :=
  .obj [("korean_answer", .str "story1"), ("dialog_history", .arr [.str "h"]),
    ("caption", .arr [.str "c0", .str "c1"])]

/-- A sequence-endpoint payload. -/
def seqPayloadA : Json :=
  .obj [("caption", .str "cap2"), ("korean_answer", .str "story2"),
    ("dialog_history", .arr [.str "h3"])]

/-- A second question payload. -/
def qPayloadB : Json :=
  .obj [("query1", .str "R1"), ("query2", .str "R2"), ("query3", .str "R3"),
    ("dialog_history", .arr [.str "h4"])]

/-- A store as it looks after a successful Start: one draft novel whose
prompt holds the serialized question response, step 1 filled, step 2
pre-populated, one captioned image. -/
def dbAfterStart : DB :=
  (NovelStartAPI.post ⟨[], [], [], [], [], []⟩ false false ⟨7, 2, 2⟩
    ⟨200, startPayloadA⟩ ⟨200, qPayloadA⟩).1

/-! ### Fixtures for the Continue/End scenarios -/

/-- Step 1 of the fixture novel, already filled. -/
def step1C : NovelContent := ⟨1, 1, some (.str "story1"), none, none, none, none⟩

/-- Step 2 of the fixture novel, pre-populated with three queries. -/
def step2C : NovelContent :=
  ⟨1, 2, none, none, some (.str "Q1"), some (.str "Q2"), some (.str "Q3")⟩

/-- The fixture novel after a Start: its prompt is the serialized question
response. -/
def novelP : Novel := { novelA with prompt := Json.dumps qPayloadA }

/-- Store mid-workflow: one draft novel at step 2 of authoring. -/
def dbContinue : DB := ⟨[novelP], [step1C, step2C], [], [⟨1, 0, 0, 0⟩], [], []⟩

/-- A Continue request choosing query 2 at step 2. -/
def creq : ContinueRequest := ⟨1, 2, .str "Q2"⟩

/-- The image row the Continue serializer persists. -/
def imgC : NovelContentImage := ⟨1, 1, 2, 0, none⟩

/-- The store right after the Continue serializer saved the image. -/
def dbContinue1 : DB := { dbContinue with images := dbContinue.images ++ [imgC] }

/-! ### C10 -/

/-- The `data` dict of the Continue sequence call (`views.py` lines
305-310): `previous_question := json.dumps(selected_query)` and
`dialog_history := json.dumps(json.loads(novel.prompt).get("dialog_history"))`. -/
def sequence_request_data (db : DB) (novel_id : Nat) (selected_query : Json) :
    Except Exc (String × String) :=
  match DB.findNovel db novel_id with
  | none => .error .doesNotExist
  | some novel =>
    match Json.loads novel.prompt with
    | none => .error .jsonDecodeError
    | some dialog_history =>
      match Json.dictGetOrNull dialog_history "dialog_history" with
      | .error e => .error e
      | .ok sent => .ok (Json.dumps selected_query, Json.dumps sent)

/-- The `data` dict of the End call (`views.py` lines 367-371):
`dialog_history := json.dumps(json.loads(novel.prompt).get("dialog_history"))`. -/
def end_request_data (db : DB) (novel_id : Nat) : Except Exc String :=
  match DB.findNovel db novel_id with
  | none => .error .doesNotExist
  | some novel =>
    match Json.loads novel.prompt with
    | none => .error .jsonDecodeError
    | some dialog_history =>
      match Json.dictGetOrNull dialog_history "dialog_history" with
      | .error e => .error e
      | .ok sent => .ok (Json.dumps sent)

/-! ### Round-trip: `Json.loads (Json.dumps j) = some j` -/

theorem digitChar_isDigit (m : Nat) (hm : m < 10) : isDigitCh (digitChar m) = true := by
  interval_cases m <;> decide

theorem digitChar_toNat (m : Nat) (hm : m < 10) : (digitChar m).toNat = 48 + m := by
  interval_cases m <;> decide

/-- Master lemma for the fuel-based digit printer. -/
theorem natToDigitsAux_spec :
    ∀ fuel n acc, n < fuel →
      ∃ ds, natToDigitsAux fuel n acc = ds ++ acc ∧ ds ≠ [] ∧
        (∀ c ∈ ds, isDigitCh c = true) ∧
        (∀ a, List.foldl (fun a c => 10 * a + (c.toNat - 48)) a ds = a * 10 ^ ds.length + n) := by
  intro fuel
  induction fuel with
  | zero => intro n acc h; omega
  | succ f ih =>
    intro n acc _
    by_cases h10 : n < 10
    · refine ⟨[digitChar n], ?_, by simp, ?_, ?_⟩
      · simp [natToDigitsAux, h10]
      · intro c hc; simp at hc; subst hc; exact digitChar_isDigit n h10
      · intro a
        simp [digitChar_toNat n h10]
        omega
    · have hdivlt : n / 10 < f := by
        have h1 : n / 10 < n := Nat.div_lt_self (by omega) (by omega)
        omega
      obtain ⟨ds, heq, hne, hdig, hval⟩ := ih (n / 10) (digitChar (n % 10) :: acc) hdivlt
      refine ⟨ds ++ [digitChar (n % 10)], ?_, by simp, ?_, ?_⟩
      · simp only [natToDigitsAux, if_neg h10, heq, List.append_assoc, List.cons_append,
          List.nil_append]
      · intro c hc
        rcases List.mem_append.mp hc with h | h
        · exact hdig c h
        · simp at h; subst h; exact digitChar_isDigit _ (Nat.mod_lt _ (by omega))
      · intro a
        rw [List.foldl_append, hval a]
        simp [digitChar_toNat _ (Nat.mod_lt n (by omega : 0 < 10))]
        rw [Nat.pow_succ]
        have := Nat.div_add_mod n 10
        ring_nf
        omega

theorem natToDigits_spec (n : Nat) :
    natToDigits n ≠ [] ∧ (∀ c ∈ natToDigits n, isDigitCh c = true) ∧
      digitsVal (natToDigits n) = n := by
  obtain ⟨ds, heq, hne, hdig, hval⟩ := natToDigitsAux_spec (n + 1) n [] (by omega)
  have : natToDigits n = ds := by simpa [natToDigits] using heq
  rw [this]
  exact ⟨hne, hdig, by simpa [digitsVal] using hval 0⟩

/-- A digit character is none of the parser's structural delimiters. -/
theorem isDigit_facts (c : Char) (h : isDigitCh c = true) :
    c ≠ 'n' ∧ c ≠ 't' ∧ c ≠ 'f' ∧ c ≠ '\x22' ∧ c ≠ '\x5b' ∧ c ≠ '\x7b' ∧
      c ≠ '\x5d' ∧ c ≠ '\x7d' ∧ c ≠ '-' ∧ c ≠ ',' ∧ isWs c = false := by
  refine ⟨?_, ?_, ?_, ?_, ?_, ?_, ?_, ?_, ?_, ?_, ?_⟩ <;>
    first
      | (rintro rfl; simp [isDigitCh] at h)
      | (have h1 : c ≠ ' ' := by rintro rfl; simp [isDigitCh] at h
         have h2 : c ≠ '\n' := by rintro rfl; simp [isDigitCh] at h
         have h3 : c ≠ '\t' := by rintro rfl; simp [isDigitCh] at h
         have h4 : c ≠ '\r' := by rintro rfl; simp [isDigitCh] at h
         simp [isWs, h1, h2, h3, h4])

theorem skipWs_cons_not_ws (c : Char) (cs : List Char) (h : isWs c = false) :
    skipWs (c :: cs) = c :: cs := by simp [skipWs, h]

theorem skipWs_cons_ws (c : Char) (cs : List Char) (h : isWs c = true) :
    skipWs (c :: cs) = skipWs cs := by simp [skipWs, h]

theorem takeWhile_digits (ds rest : List Char) (hds : ∀ c ∈ ds, isDigitCh c = true)
    (hrest : noDigitHead rest = true) :
    (ds ++ rest).takeWhile isDigitCh = ds ∧ (ds ++ rest).dropWhile isDigitCh = rest := by
  induction ds with
  | nil =>
    cases rest with
    | nil => simp
    | cons c r =>
      simp [noDigitHead] at hrest
      simp [List.takeWhile, List.dropWhile, hrest]
  | cons d ds ih =>
    have hd : isDigitCh d = true := hds d (by simp)
    have := ih (fun c hc => hds c (by simp [hc]))
    simp [List.takeWhile, List.dropWhile, hd, this.1, this.2]

theorem parseNumFrom_dumpInt (i : Int) (rest : List Char) (hrest : noDigitHead rest = true) :
    parseNumFrom (dumpInt i ++ rest) = some (.num i, rest) := by
  obtain ⟨hne, hdig, hval⟩ := natToDigits_spec i.natAbs
  obtain ⟨c, t, hct⟩ : ∃ c t, natToDigits i.natAbs = c :: t := by
    cases h : natToDigits i.natAbs with
    | nil => exact absurd h hne
    | cons c t => exact ⟨c, t, rfl⟩
  have hcd : isDigitCh c = true := hdig c (by rw [hct]; simp)
  have htw := takeWhile_digits (natToDigits i.natAbs) rest hdig hrest
  have hie : (natToDigits i.natAbs).isEmpty = false := by rw [hct]; rfl
  by_cases hneg : i < 0
  · have h1 : dumpInt i ++ rest = '-' :: (natToDigits i.natAbs ++ rest) := by
      simp [dumpInt, hneg]
    have hv2 : -(digitsVal (natToDigits i.natAbs) : Int) = i := by rw [hval]; omega
    rw [h1]
    simp [parseNumFrom, hie, htw.1, htw.2, hv2]
  · have h1 : dumpInt i ++ rest = natToDigits i.natAbs ++ rest := by
      simp [dumpInt, hneg]
    have hcm : c ≠ '-' := (isDigit_facts c hcd).2.2.2.2.2.2.2.2.1
    have hv2 : (digitsVal (natToDigits i.natAbs) : Int) = i := by rw [hval]; omega
    rw [h1, hct, List.cons_append]
    rw [parseNumFrom.eq_def]
    simp only [if_neg hcm]
    rw [← List.cons_append, ← hct, htw.1, htw.2]
    simp [hie, hv2]

theorem parseStrBody_quote (acc rest : List Char) :
    parseStrBody acc ('\x22' :: rest) = some (⟨acc.reverse⟩, rest) := by
  rw [parseStrBody.eq_def]; simp

theorem parseStrBody_escaped (acc rest : List Char) (d e : Char) (h : unescChar d = some e) :
    parseStrBody acc ('\x5c' :: d :: rest) = parseStrBody (e :: acc) rest := by
  rw [parseStrBody.eq_def]; simp [h]

theorem parseStrBody_plain (acc rest : List Char) (c : Char) (h1 : ¬c = '\x22')
    (h2 : ¬c = '\x5c') : parseStrBody acc (c :: rest) = parseStrBody (c :: acc) rest := by
  rw [parseStrBody.eq_def]; simp [h1, h2]

theorem parseStrBody_escList (cs : List Char) :
    ∀ acc rest, parseStrBody acc (escList cs ++ '\x22' :: rest) =
      some (⟨acc.reverse ++ cs⟩, rest) := by
  induction cs with
  | nil => intro acc rest; simp [escList, parseStrBody_quote]
  | cons c cs ih =>
    intro acc rest
    by_cases h1 : c = '\x22'
    · subst h1
      have : escList ('\x22' :: cs) = '\x5c' :: '\x22' :: escList cs := by
        simp [escList, escChar]
      rw [this, List.cons_append, List.cons_append,
        parseStrBody_escaped _ _ '\x22' '\x22' (by decide), ih]
      simp
    · by_cases h2 : c = '\x5c'
      · subst h2
        have : escList ('\x5c' :: cs) = '\x5c' :: '\x5c' :: escList cs := by
          simp [escList, escChar]
        rw [this, List.cons_append, List.cons_append,
          parseStrBody_escaped _ _ '\x5c' '\x5c' (by decide), ih]
        simp
      · by_cases h3 : c = '\n'
        · subst h3
          have : escList ('\n' :: cs) = '\x5c' :: 'n' :: escList cs := by
            simp [escList, escChar]
          rw [this, List.cons_append, List.cons_append,
            parseStrBody_escaped _ _ 'n' '\n' (by decide), ih]
          simp
        · by_cases h4 : c = '\t'
          · subst h4
            have : escList ('\t' :: cs) = '\x5c' :: 't' :: escList cs := by
              simp [escList, escChar]
            rw [this, List.cons_append, List.cons_append,
              parseStrBody_escaped _ _ 't' '\t' (by decide), ih]
            simp
          · by_cases h5 : c = '\r'
            · subst h5
              have : escList ('\r' :: cs) = '\x5c' :: 'r' :: escList cs := by
                simp [escList, escChar]
              rw [this, List.cons_append, List.cons_append,
                parseStrBody_escaped _ _ 'r' '\r' (by decide), ih]
              simp
            · have : escList (c :: cs) = c :: escList cs := by
                simp [escList, escChar, h1, h2, h3, h4, h5]
              rw [this, List.cons_append, parseStrBody_plain _ _ _ h1 h2, ih]
              simp

/-- Every serialized value starts with a non-whitespace character that is
neither a closing bracket nor a closing brace. -/
theorem dumpVal_head (j : Json) :
    ∃ c t, dumpVal j = c :: t ∧ isWs c = false ∧ c ≠ '\x5d' ∧ c ≠ '\x7d' := by
  cases j with
  | null => exact ⟨'n', ['u', 'l', 'l'], by simp [dumpVal], by decide, by decide, by decide⟩
  | bool b =>
    cases b with
    | true => exact ⟨'t', ['r', 'u', 'e'], by simp [dumpVal], by decide, by decide, by decide⟩
    | false =>
      exact ⟨'f', ['a', 'l', 's', 'e'], by simp [dumpVal], by decide, by decide, by decide⟩
  | num i =>
    by_cases hneg : i < 0
    · exact ⟨'-', natToDigits i.natAbs, by simp [dumpVal, dumpInt, hneg], by decide, by decide,
        by decide⟩
    · obtain ⟨hne, hdig, _⟩ := natToDigits_spec i.natAbs
      obtain ⟨c, t, hct⟩ : ∃ c t, natToDigits i.natAbs = c :: t := by
        cases h : natToDigits i.natAbs with
        | nil => exact absurd h hne
        | cons c t => exact ⟨c, t, rfl⟩
      have hcd : isDigitCh c = true := hdig c (by rw [hct]; simp)
      have hf := isDigit_facts c hcd
      exact ⟨c, t, by simp [dumpVal, dumpInt, hneg, hct], hf.2.2.2.2.2.2.2.2.2.2,
        hf.2.2.2.2.2.2.1, hf.2.2.2.2.2.2.2.1⟩
  | str s =>
    exact ⟨'\x22', escList s.toList ++ ['\x22'], by simp [dumpVal, dumpStr], by decide,
      by decide, by decide⟩
  | arr es =>
    cases es with
    | nil => exact ⟨'\x5b', ['\x5d'], by simp [dumpVal], by decide, by decide, by decide⟩
    | cons e es =>
      exact ⟨'\x5b', dumpVal e ++ (dumpElemsRest es ++ ['\x5d']), by simp [dumpVal], by decide,
        by decide, by decide⟩
  | obj fs =>
    cases fs with
    | nil => exact ⟨'\x7b', ['\x7d'], by simp [dumpVal], by decide, by decide, by decide⟩
    | cons f fs =>
      exact ⟨'\x7b', dumpField f ++ (dumpFieldsRest fs ++ ['\x7d']), by simp [dumpVal], by decide,
        by decide, by decide⟩

theorem skipWs_dumpVal (j : Json) (r : List Char) :
    skipWs (dumpVal j ++ r) = dumpVal j ++ r := by
  obtain ⟨c, t, hct, hws, _, _⟩ := dumpVal_head j
  rw [hct, List.cons_append, skipWs_cons_not_ws _ _ hws]

mutual
theorem jsizeV_le : (j : Json) → jsizeV j ≤ 2 * (dumpVal j).length + 2
  | .null => by simp [jsizeV]
  | .bool b => by cases b <;> simp [jsizeV]
  | .num i => by simp [jsizeV]
  | .str s => by simp [jsizeV]
  | .arr [] => by simp [jsizeV, jsizeE, dumpVal]
  | .arr (e :: es) => by
    have h1 := jsizeV_le e
    have h2 := jsizeE_le es
    simp only [jsizeV, jsizeE, dumpVal, List.length_cons, List.length_append]
    omega
  | .obj [] => by simp [jsizeV, jsizeF, dumpVal]
  | .obj ((k, v) :: fs) => by
    have h1 := jsizeV_le v
    have h2 := jsizeF_le fs
    simp only [jsizeV, jsizeF, dumpVal, dumpField, List.length_cons, List.length_append]
    omega

theorem jsizeE_le : (es : List Json) → jsizeE es ≤ 2 * (dumpElemsRest es).length + 2
  | [] => by simp [jsizeE]
  | e :: es => by
    have h1 := jsizeV_le e
    have h2 := jsizeE_le es
    simp only [jsizeE, dumpElemsRest, List.length_cons, List.length_append]
    omega

theorem jsizeF_le : (fs : List (String × Json)) → jsizeF fs ≤ 2 * (dumpFieldsRest fs).length + 2
  | [] => by simp [jsizeF]
  | (k, v) :: fs => by
    have h1 := jsizeV_le v
    have h2 := jsizeF_le fs
    simp only [jsizeF, dumpFieldsRest, dumpField, List.length_cons, List.length_append]
    omega
end

theorem jsizeV_pos (j : Json) : 1 ≤ jsizeV j := by
  cases j <;> simp [jsizeV]

theorem jsizeE_pos (es : List Json) : 1 ≤ jsizeE es := by
  cases es with
  | nil => simp [jsizeE]
  | cons e es => simp [jsizeE]; omega

theorem jsizeF_pos (fs : List (String × Json)) : 1 ≤ jsizeF fs := by
  cases fs with
  | nil => simp [jsizeF]
  | cons f fs => cases f; simp [jsizeF]; omega

theorem string_mk_toList (s : String) : (⟨s.toList⟩ : String) = s := rfl

theorem dumpInt_head (i : Int) :
    ∃ c t, dumpInt i = c :: t ∧ (isDigitCh c = true ∨ c = '-') := by
  by_cases hneg : i < 0
  · exact ⟨'-', natToDigits i.natAbs, by simp [dumpInt, hneg], Or.inr rfl⟩
  · obtain ⟨hne, hdig, _⟩ := natToDigits_spec i.natAbs
    obtain ⟨c, t, hct⟩ : ∃ c t, natToDigits i.natAbs = c :: t := by
      cases h : natToDigits i.natAbs with
      | nil => exact absurd h hne
      | cons c t => exact ⟨c, t, rfl⟩
    exact ⟨c, t, by simp [dumpInt, hneg, hct], Or.inl (hdig c (by rw [hct]; simp))⟩

/-! Step lemmas exposing one reduction of the fuelled parser. -/

theorem parseVal_step_null (f : Nat) (r : List Char) :
    parseVal (f + 1) ('n' :: 'u' :: 'l' :: 'l' :: r) = some (.null, r) := by
  rw [parseVal.eq_def]; simp [skipWs_cons_not_ws _ _ (by decide : isWs 'n' = false)]

theorem parseVal_step_true (f : Nat) (r : List Char) :
    parseVal (f + 1) ('t' :: 'r' :: 'u' :: 'e' :: r) = some (.bool true, r) := by
  rw [parseVal.eq_def]; simp [skipWs_cons_not_ws _ _ (by decide : isWs 't' = false)]

theorem parseVal_step_false (f : Nat) (r : List Char) :
    parseVal (f + 1) ('f' :: 'a' :: 'l' :: 's' :: 'e' :: r) = some (.bool false, r) := by
  rw [parseVal.eq_def]; simp [skipWs_cons_not_ws _ _ (by decide : isWs 'f' = false)]

theorem parseVal_step_quote (f : Nat) (r : List Char) :
    parseVal (f + 1) ('\x22' :: r) = (parseStrBody [] r).map (fun p => (.str p.1, p.2)) := by
  rw [parseVal.eq_def]; simp [skipWs_cons_not_ws _ _ (by decide : isWs '\x22' = false)]

theorem parseVal_step_lbrack (f : Nat) (r : List Char) :
    parseVal (f + 1) ('\x5b' :: r) = parseArrTail f (skipWs r) := by
  rw [parseVal.eq_def]; simp [skipWs_cons_not_ws _ _ (by decide : isWs '\x5b' = false)]

theorem parseVal_step_lbrace (f : Nat) (r : List Char) :
    parseVal (f + 1) ('\x7b' :: r) = parseObjTail f (skipWs r) := by
  rw [parseVal.eq_def]; simp [skipWs_cons_not_ws _ _ (by decide : isWs '\x7b' = false)]

theorem parseVal_step_num (f : Nat) (c : Char) (r : List Char)
    (hd : isDigitCh c = true ∨ c = '-') :
    parseVal (f + 1) (c :: r) = parseNumFrom (c :: r) := by
  rcases hd with hd | hd
  · have hf := isDigit_facts c hd
    rw [parseVal.eq_def]
    simp [skipWs_cons_not_ws _ _ hf.2.2.2.2.2.2.2.2.2.2, hf.1, hf.2.1, hf.2.2.1, hf.2.2.2.1,
      hf.2.2.2.2.1, hf.2.2.2.2.2.1]
  · subst hd
    rw [parseVal.eq_def]; simp [skipWs_cons_not_ws _ _ (by decide : isWs '-' = false)]

theorem parseArrTail_step_close (f : Nat) (r : List Char) :
    parseArrTail f ('\x5d' :: r) = some (.arr [], r) := by
  rw [parseArrTail.eq_def]; simp

theorem parseArrTail_step_elem (f : Nat) (c : Char) (r : List Char) (h : c ≠ '\x5d') :
    parseArrTail f (c :: r) = (parseElems f (c :: r)).map (fun p => (.arr p.1, p.2)) := by
  rw [parseArrTail.eq_def]; simp [h]

theorem parseObjTail_step_close (f : Nat) (r : List Char) :
    parseObjTail f ('\x7d' :: r) = some (.obj [], r) := by
  rw [parseObjTail.eq_def]; simp

theorem parseObjTail_step_field (f : Nat) (c : Char) (r : List Char) (h : c ≠ '\x7d') :
    parseObjTail f (c :: r) = (parseFields f (c :: r)).map (fun p => (.obj p.1, p.2)) := by
  rw [parseObjTail.eq_def]; simp [h]

theorem noDigitHead_elemsRest (es : List Json) (rest : List Char) :
    noDigitHead (dumpElemsRest es ++ '\x5d' :: rest) = true := by
  cases es with
  | nil => simp [dumpElemsRest, noDigitHead, isDigitCh]
  | cons e es => simp [dumpElemsRest, noDigitHead, isDigitCh]

theorem noDigitHead_fieldsRest (fs : List (String × Json)) (rest : List Char) :
    noDigitHead (dumpFieldsRest fs ++ '\x7d' :: rest) = true := by
  cases fs with
  | nil => simp [dumpFieldsRest, noDigitHead, isDigitCh]
  | cons f fs => simp [dumpFieldsRest, noDigitHead, isDigitCh]

theorem parseElems_step (f : Nat) (cs : List Char) :
    parseElems (f + 1) cs =
      match parseVal f cs with
      | none => none
      | some (v, r) =>
        match skipWs r with
        | [] => none
        | c :: r2 =>
          if c = ',' then (parseElems f (skipWs r2)).map (fun p => (v :: p.1, p.2))
          else if c = '\x5d' then some ([v], r2)
          else none := by
  rw [parseElems.eq_def]

theorem parseFields_step (f : Nat) (cs : List Char) :
    parseFields (f + 1) cs =
      match cs with
      | '\x22' :: r =>
        match parseStrBody [] r with
        | none => none
        | some (k, r1) =>
          match skipWs r1 with
          | ':' :: r2 =>
            match parseVal f (skipWs r2) with
            | none => none
            | some (v, r3) =>
              match skipWs r3 with
              | [] => none
              | c :: r4 =>
                if c = ',' then (parseFields f (skipWs r4)).map (fun p => ((k, v) :: p.1, p.2))
                else if c = '\x7d' then some ([(k, v)], r4)
                else none
          | _ => none
      | _ => none := by
  rw [parseFields.eq_def]

/-- Main round-trip lemma: with enough fuel the parser inverts the printer. -/
theorem parse_dump_main : ∀ fuel : Nat,
    (∀ j rest, jsizeV j ≤ fuel → noDigitHead rest = true →
      parseVal fuel (dumpVal j ++ rest) = some (j, rest)) ∧
    (∀ e es rest, jsizeE (e :: es) ≤ fuel →
      parseElems fuel ((dumpVal e ++ dumpElemsRest es) ++ '\x5d' :: rest) = some (e :: es, rest)) ∧
    (∀ k v fs rest, jsizeF ((k, v) :: fs) ≤ fuel →
      parseFields fuel ((dumpField (k, v) ++ dumpFieldsRest fs) ++ '\x7d' :: rest) =
        some ((k, v) :: fs, rest)) := by
  intro fuel
  induction fuel with
  | zero =>
    refine ⟨fun j rest hsz _ => absurd hsz ?_, fun e es rest hsz => absurd hsz ?_,
      fun k v fs rest hsz => absurd hsz ?_⟩
    · have := jsizeV_pos j; omega
    · simp only [jsizeE]; omega
    · simp only [jsizeF]; omega
  | succ f ih =>
    obtain ⟨ihV, ihE, ihF⟩ := ih
    refine ⟨?_, ?_, ?_⟩
    · intro j rest hsz hnd
      cases j with
      | null =>
        have h1 : dumpVal .null ++ rest = 'n' :: 'u' :: 'l' :: 'l' :: rest := by simp [dumpVal]
        rw [h1, parseVal_step_null]
      | bool b =>
        cases b with
        | true =>
          have h1 : dumpVal (.bool true) ++ rest = 't' :: 'r' :: 'u' :: 'e' :: rest := by
            simp [dumpVal]
          rw [h1, parseVal_step_true]
        | false =>
          have h1 : dumpVal (.bool false) ++ rest = 'f' :: 'a' :: 'l' :: 's' :: 'e' :: rest := by
            simp [dumpVal]
          rw [h1, parseVal_step_false]
      | num i =>
        obtain ⟨c, t, hct, hd⟩ := dumpInt_head i
        have h1 : dumpVal (.num i) ++ rest = c :: (t ++ rest) := by simp [dumpVal, hct]
        have h2 : c :: (t ++ rest) = dumpInt i ++ rest := by simp [hct]
        rw [h1, parseVal_step_num f c _ hd, h2, parseNumFrom_dumpInt i rest hnd]
      | str s =>
        have h1 : dumpVal (.str s) ++ rest = '\x22' :: (escList s.toList ++ ('\x22' :: rest)) := by
          simp [dumpVal, dumpStr]
        rw [h1, parseVal_step_quote, parseStrBody_escList]
        simp [string_mk_toList]
      | arr es =>
        cases es with
        | nil =>
          have h1 : dumpVal (.arr []) ++ rest = '\x5b' :: '\x5d' :: rest := by simp [dumpVal]
          rw [h1, parseVal_step_lbrack,
            skipWs_cons_not_ws _ _ (by decide : isWs '\x5d' = false), parseArrTail_step_close]
        | cons e es =>
          have h1 : dumpVal (.arr (e :: es)) ++ rest
              = '\x5b' :: ((dumpVal e ++ dumpElemsRest es) ++ '\x5d' :: rest) := by
            simp [dumpVal]
          rw [h1, parseVal_step_lbrack]
          have h2 : (dumpVal e ++ dumpElemsRest es) ++ '\x5d' :: rest
              = dumpVal e ++ (dumpElemsRest es ++ '\x5d' :: rest) := by simp
          rw [h2, skipWs_dumpVal]
          obtain ⟨c, t, hct, hws, hrb, hob⟩ := dumpVal_head e
          rw [hct, List.cons_append, parseArrTail_step_elem f c _ hrb, ← List.cons_append, ← hct,
            ← h2, ihE e es rest (by simp only [jsizeV] at hsz; omega)]
          rfl
      | obj fs =>
        cases fs with
        | nil =>
          have h1 : dumpVal (.obj []) ++ rest = '\x7b' :: '\x7d' :: rest := by simp [dumpVal]
          rw [h1, parseVal_step_lbrace,
            skipWs_cons_not_ws _ _ (by decide : isWs '\x7d' = false), parseObjTail_step_close]
        | cons kv fs =>
          obtain ⟨k, v⟩ := kv
          have h1 : dumpVal (.obj ((k, v) :: fs)) ++ rest
              = '\x7b' :: ((dumpField (k, v) ++ dumpFieldsRest fs) ++ '\x7d' :: rest) := by
            simp [dumpVal]
          rw [h1, parseVal_step_lbrace]
          have hfh : dumpField (k, v) ++ (dumpFieldsRest fs ++ '\x7d' :: rest)
              = '\x22' :: ((escList k.toList ++ ['\x22'])
                  ++ (':' :: ' ' :: dumpVal v ++ (dumpFieldsRest fs ++ '\x7d' :: rest))) := by
            simp [dumpField, dumpStr]
          have h2 : (dumpField (k, v) ++ dumpFieldsRest fs) ++ '\x7d' :: rest
              = dumpField (k, v) ++ (dumpFieldsRest fs ++ '\x7d' :: rest) := by simp
          rw [h2, hfh, skipWs_cons_not_ws _ _ (by decide : isWs '\x22' = false),
            parseObjTail_step_field f _ _ (by decide : ('\x22' : Char) ≠ '\x7d'), ← hfh, ← h2,
            ihF k v fs rest (by simp only [jsizeV] at hsz; omega)]
          rfl
    · intro e es rest hsz
      have hszE : jsizeV e ≤ f ∧ jsizeE es ≤ f := by
        have h1 := jsizeV_pos e; have h2 := jsizeE_pos es
        simp only [jsizeE] at hsz; omega
      have h2 : (dumpVal e ++ dumpElemsRest es) ++ '\x5d' :: rest
          = dumpVal e ++ (dumpElemsRest es ++ '\x5d' :: rest) := by simp
      rw [parseElems_step, h2, ihV e _ hszE.1 (noDigitHead_elemsRest es rest)]
      cases es with
      | nil =>
        simp [dumpElemsRest, skipWs_cons_not_ws _ _ (by decide : isWs '\x5d' = false)]
      | cons e2 es2 =>
        have h3 : dumpElemsRest (e2 :: es2) ++ '\x5d' :: rest
            = ',' :: ' ' :: ((dumpVal e2 ++ dumpElemsRest es2) ++ '\x5d' :: rest) := by
          simp [dumpElemsRest]
        rw [h3]
        have h4 : skipWs (',' :: ' ' :: ((dumpVal e2 ++ dumpElemsRest es2) ++ '\x5d' :: rest))
            = ',' :: ' ' :: ((dumpVal e2 ++ dumpElemsRest es2) ++ '\x5d' :: rest) :=
          skipWs_cons_not_ws _ _ (by decide)
        have h5 : skipWs (' ' :: ((dumpVal e2 ++ dumpElemsRest es2) ++ '\x5d' :: rest))
            = (dumpVal e2 ++ dumpElemsRest es2) ++ '\x5d' :: rest := by
          rw [skipWs_cons_ws _ _ (by decide : isWs ' ' = true)]
          rw [List.append_assoc, skipWs_dumpVal]
        simp only [h4, h5]
        rw [ihE e2 es2 rest hszE.2]
        simp
    · intro k v fs rest hsz
      have hszF : jsizeV v ≤ f ∧ jsizeF fs ≤ f := by
        have h1 := jsizeV_pos v; have h2 := jsizeF_pos fs
        simp only [jsizeF] at hsz; omega
      have hfh : (dumpField (k, v) ++ dumpFieldsRest fs) ++ '\x7d' :: rest
          = '\x22' :: (escList k.toList
              ++ ('\x22' :: (':' :: ' ' :: (dumpVal v ++ (dumpFieldsRest fs ++ '\x7d' :: rest))))) := by
        simp [dumpField, dumpStr]
      rw [parseFields_step, hfh]
      simp only [parseStrBody_escList, List.reverse_nil, List.nil_append, string_mk_toList]
      have h4 : skipWs (':' :: ' ' :: (dumpVal v ++ (dumpFieldsRest fs ++ '\x7d' :: rest)))
          = ':' :: ' ' :: (dumpVal v ++ (dumpFieldsRest fs ++ '\x7d' :: rest)) :=
        skipWs_cons_not_ws _ _ (by decide)
      have h5 : skipWs (' ' :: (dumpVal v ++ (dumpFieldsRest fs ++ '\x7d' :: rest)))
          = dumpVal v ++ (dumpFieldsRest fs ++ '\x7d' :: rest) := by
        rw [skipWs_cons_ws _ _ (by decide : isWs ' ' = true), skipWs_dumpVal]
      simp only [h4, h5]
      rw [ihV v _ hszF.1 (noDigitHead_fieldsRest fs rest)]
      cases fs with
      | nil =>
        simp [dumpFieldsRest, skipWs_cons_not_ws _ _ (by decide : isWs '\x7d' = false)]
      | cons kv2 fs2 =>
        obtain ⟨k2, v2⟩ := kv2
        have h6 : dumpFieldsRest ((k2, v2) :: fs2) ++ '\x7d' :: rest
            = ',' :: ' ' :: ((dumpField (k2, v2) ++ dumpFieldsRest fs2) ++ '\x7d' :: rest) := by
          simp [dumpFieldsRest]
        rw [h6]
        have h7 : skipWs (',' :: ' ' :: ((dumpField (k2, v2) ++ dumpFieldsRest fs2) ++ '\x7d' :: rest))
            = ',' :: ' ' :: ((dumpField (k2, v2) ++ dumpFieldsRest fs2) ++ '\x7d' :: rest) :=
          skipWs_cons_not_ws _ _ (by decide)
        have h8 : skipWs (' ' :: ((dumpField (k2, v2) ++ dumpFieldsRest fs2) ++ '\x7d' :: rest))
            = (dumpField (k2, v2) ++ dumpFieldsRest fs2) ++ '\x7d' :: rest := by
          rw [skipWs_cons_ws _ _ (by decide : isWs ' ' = true)]
          have : (dumpField (k2, v2) ++ dumpFieldsRest fs2) ++ '\x7d' :: rest
              = '\x22' :: (escList k2.toList
                  ++ ('\x22' :: (':' :: ' ' :: (dumpVal v2 ++ (dumpFieldsRest fs2 ++ '\x7d' :: rest))))) := by
            simp [dumpField, dumpStr]
          rw [this, skipWs_cons_not_ws _ _ (by decide : isWs '\x22' = false)]
        simp only [h7, h8]
        rw [ihF k2 v2 fs2 rest hszF.2]
        simp

/-- `json.loads` inverts `json.dumps`: serializing a dialog-state value and
parsing it back yields the same value. -/
theorem Json.loads_dumps (j : Json) : Json.loads (Json.dumps j) = some j := by
  have h1 : (Json.dumps j).toList = dumpVal j := rfl
  have h2 : (Json.dumps j).length = (dumpVal j).length := rfl
  have h3 := (parse_dump_main (2 * (dumpVal j).length + 2)).1 j [] (jsizeV_le j) (by decide)
  rw [List.append_nil] at h3
  rw [Json.loads.eq_def, h1, h2, h3]
  simp [skipWs]

/-! ### List lemmas for the store operations -/

theorem find?_map_invariant {α : Type} (p : α → Bool) (u : α → α)
    (hu : ∀ a, p (u a) = p a) :
    ∀ l : List α, (l.map u).find? p = (l.find? p).map u := by
  intro l
  induction l with
  | nil => rfl
  | cons a t ih =>
    have hua : p (u a) = p a := hu a
    by_cases hpa : p a = true
    · rw [List.map_cons, List.find?_cons_of_pos _ (by rw [hua]; exact hpa),
        List.find?_cons_of_pos _ hpa]
      rfl
    · rw [List.map_cons, List.find?_cons_of_neg _ (by simp [hua, hpa]),
        List.find?_cons_of_neg _ (by simp [hpa]), ih]

theorem find?_append_some {α : Type} {p : α → Bool} {l1 : List α} {a : α} (l2 : List α)
    (h : l1.find? p = some a) : (l1 ++ l2).find? p = some a := by
  induction l1 with
  | nil => simp [List.find?] at h
  | cons x t ih =>
    by_cases hpx : p x = true
    · rw [List.find?_cons_of_pos _ hpx] at h
      rw [List.cons_append, List.find?_cons_of_pos _ hpx, h]
    · rw [List.find?_cons_of_neg _ (by simp [hpx])] at h
      rw [List.cons_append, List.find?_cons_of_neg _ (by simp [hpx]), ih h]

theorem find?_append_none {α : Type} {p : α → Bool} {l1 : List α} (l2 : List α)
    (h : l1.find? p = none) : (l1 ++ l2).find? p = l2.find? p := by
  induction l1 with
  | nil => simp
  | cons x t ih =>
    by_cases hpx : p x = true
    · rw [List.find?_cons_of_pos _ hpx] at h; cases h
    · rw [List.find?_cons_of_neg _ (by simp [hpx])] at h
      rw [List.cons_append, List.find?_cons_of_neg _ (by simp [hpx]), ih h]

theorem foldr_max_ge {α : Type} (f : α → Nat) :
    ∀ (l : List α) (a : α), a ∈ l → f a ≤ l.foldr (fun x m => max (f x) m) 0 := by
  intro l
  induction l with
  | nil => intro a h; cases h
  | cons x t ih =>
    intro a h
    rcases List.mem_cons.mp h with rfl | h
    · exact Nat.le_max_left _ _
    · exact Nat.le_trans (ih a h) (Nat.le_max_right _ _)

theorem nextNovelId_fresh (db : DB) : ∀ n ∈ db.novels, n.id ≠ DB.nextNovelId db := by
  intro n h heq
  have h2 : n.id ≤ db.novels.foldr (fun n a => max n.id a) 0 :=
    foldr_max_ge (fun x => x.id) db.novels n h
  unfold DB.nextNovelId at heq
  omega

theorem nextImageId_fresh (db : DB) : ∀ im ∈ db.images, im.id ≠ DB.nextImageId db := by
  intro im h heq
  have h2 : im.id ≤ db.images.foldr (fun n a => max n.id a) 0 :=
    foldr_max_ge (fun x => x.id) db.images im h
  unfold DB.nextImageId at heq
  omega

theorem findNovel_updateNovel (db : DB) (n' : Novel) (nid : Nat) :
    DB.findNovel (DB.updateNovel db n') nid
      = (DB.findNovel db nid).map (fun m => if m.id == n'.id then n' else m) := by
  unfold DB.findNovel DB.updateNovel
  apply find?_map_invariant
  intro a
  by_cases h : a.id == n'.id
  · have : a.id = n'.id := by simpa using h
    simp [h, this]
  · simp [h]

theorem statusOf_updateNovel (db : DB) (n' : Novel) (nid : Nat) :
    statusOf (DB.updateNovel db n') nid
      = (DB.findNovel db nid).map (fun m => if m.id == n'.id then n'.status else m.status) := by
  unfold statusOf
  rw [findNovel_updateNovel]
  cases DB.findNovel db nid with
  | none => rfl
  | some m => by_cases hm : m.id = n'.id <;> simp [hm]

/-! ### Claims -/

/-- C1: the spec says `POST /novels/{id}/like` returns 201 when a like is
created and 204 when one is removed.  The code does the opposite: with no
like row present, `perform_create` saves a like row and returns `False`,
so `create` answers 204; toggling again deletes the row and answers 201.
This theorem evaluates the handler on a store with no like for (1, 7):
the first call creates the row yet returns 204, the second call removes
it yet returns 201 Created. -/
theorem C1_like_toggle_inverted_statuses :
    (NovelLikeAPI.create dbDraft 1 7).2 = .respEmpty 204 ∧
    (NovelLikeAPI.create dbDraft 1 7).1.likes = [⟨1, 7⟩] ∧
    (NovelLikeAPI.create (NovelLikeAPI.create dbDraft 1 7).1 1 7).2 = .resp 201 () ∧
    (NovelLikeAPI.create (NovelLikeAPI.create dbDraft 1 7).1 1 7).1.likes = [] :=
  ⟨rfl, rfl, rfl, rfl⟩

/-- C2 counterexample: `NovelDetailAPI` has no status filter
(`views.py` line 101), so the detail endpoint serves a DRAFT novel —
refuting the claim that detail returns only FINISHED novels. -/
theorem C2_detail_serves_draft_counterexample :
    NovelDetailAPI.get_object dbDraft 1 = some novelA ∧ novelA.status = .draft :=
  ⟨rfl, rfl⟩

/-- C2 (amended): the listing and recommendation querysets (and the
preview queryset) contain only FINISHED novels, so those endpoints never
return a DRAFT novel; the detail endpoint, however, does not filter by
status. -/
theorem C2_list_rec_preview_only_finished :
    ∀ (db : DB) (genre_param : Option String) (n : Novel),
      (n ∈ NovelListAPI.get_queryset db genre_param → n.status = .finished) ∧
      (n ∈ NovelRecAPI.queryset db → n.status = .finished) ∧
      (n ∈ NovelPreviewAPI.queryset db → n.status = .finished) := by
  intro db gp n
  refine ⟨?_, ?_, ?_⟩
  · intro h
    have hbase : n ∈ db.novels.filter (fun n => n.status == NovelStatus.finished) := by
      cases gp with
      | none => simpa [NovelListAPI.get_queryset] using h
      | some g =>
        simp only [NovelListAPI.get_queryset] at h
        cases hg : Genre.get_value_from_label g with
        | none => rw [hg] at h; exact h
        | some v => rw [hg] at h; exact (List.mem_filter.mp h).1
    have := (List.mem_filter.mp hbase).2
    simpa using this
  · intro h
    have := (List.mem_filter.mp h).2
    simpa using this
  · intro h
    have := (List.mem_filter.mp h).2
    simpa using this

/-- C2 witness: at a concrete store holding one finished novel, the
finished novel is in the listing queryset and the theorem yields its
FINISHED status. -/
theorem C2_list_rec_preview_only_finished_witness :
    ({ novelA with status := .finished } ∈ NovelListAPI.get_queryset dbFinished none) ∧
    ({ novelA with status := .finished } : Novel).status = .finished := by
  have hmem : ({ novelA with status := .finished } ∈ NovelListAPI.get_queryset dbFinished none) := by
    show _ ∈ NovelListAPI.get_queryset dbFinished none
    have : NovelListAPI.get_queryset dbFinished none = [{ novelA with status := .finished }] := rfl
    rw [this]
    exact List.mem_singleton.mpr rfl
  exact ⟨hmem, (C2_list_rec_preview_only_finished dbFinished none _).1 hmem⟩

/-! ### Status-machine lemmas for C7 -/

theorem statusOf_finished_elim (db : DB) (nid : Nat)
    (h : statusOf db nid = some .finished) :
    ∃ n0, DB.findNovel db nid = some n0 ∧ n0.status = .finished := by
  unfold statusOf at h
  cases hf2 : DB.findNovel db nid with
  | none => rw [hf2] at h; cases h
  | some x => rw [hf2] at h; exact ⟨x, rfl, by simpa using h⟩

/-- Updating a row that keeps its status (or sets it to FINISHED) preserves
`status = FINISHED` for every novel. -/
theorem statusOf_update_preserve (db : DB) (m n' : Novel) (nid' nid : Nat)
    (hf : DB.findNovel db nid' = some m) (hid : n'.id = m.id)
    (hst : n'.status = m.status ∨ n'.status = .finished)
    (h : statusOf db nid = some .finished) :
    statusOf (DB.updateNovel db n') nid = some .finished := by
  rw [statusOf_updateNovel]
  obtain ⟨n0, hn0, hn0s⟩ := statusOf_finished_elim db nid h
  rw [hn0]
  by_cases hideq : n0.id = n'.id
  · have hn0id : n0.id = nid := by simpa using List.find?_some hn0
    have hmid : m.id = nid' := by simpa using List.find?_some hf
    have hnn : nid = nid' := by rw [← hn0id, hideq, hid, hmid]
    subst hnn
    have hmeq : n0 = m := by rw [hf] at hn0; exact (Option.some.inj hn0).symm
    rcases hst with hs | hs
    · simp [hideq, hs, ← hmeq, hn0s]
    · simp [hideq, hs]
  · simp [hideq, hn0s]

theorem statusOf_set_images (db : DB) (x : List NovelContentImage) (nid : Nat) :
    statusOf { db with images := x } nid = statusOf db nid := rfl

theorem statusOf_insert_fresh (db : DB) (n : Novel) (nid : Nat)
    (h : statusOf db nid = some .finished) :
    statusOf { db with novels := db.novels ++ [n] } nid = some .finished := by
  obtain ⟨n0, hn0, hn0s⟩ := statusOf_finished_elim db nid h
  unfold DB.findNovel at hn0
  unfold statusOf DB.findNovel
  rw [find?_append_some _ hn0]
  simpa using hn0s

/-- The Start serializer only appends rows, so it preserves FINISHED. -/
theorem startSave_statusOf (db : DB) (req : StartRequest) (nid : Nat)
    (h : statusOf db nid = some .finished) :
    statusOf (NovelStartSerializer.save db req).1 nid = some .finished := by
  unfold NovelStartSerializer.save
  exact statusOf_insert_fresh db _ nid h

/-- After the Start serializer, the fresh id resolves to the new novel. -/
theorem startSave_findNew (db : DB) (req : StartRequest) :
    DB.findNovel (NovelStartSerializer.save db req).1 (DB.nextNovelId db)
      = some (NovelStartSerializer.save db req).2.1 := by
  unfold NovelStartSerializer.save DB.findNovel
  dsimp only
  rw [find?_append_none _ (by
    rw [List.find?_eq_none]
    intro a ha
    simpa using nextNovelId_fresh db a ha)]
  simp

/-- The new novel created by Start carries the fresh id and DRAFT status. -/
theorem startSave_newNovel (db : DB) (req : StartRequest) :
    (NovelStartSerializer.save db req).2.1.id = DB.nextNovelId db ∧
    (NovelStartSerializer.save db req).2.1.status = .draft := ⟨rfl, rfl⟩

theorem find?_filter_of_imp {α : Type} (p q : α → Bool) :
    ∀ l : List α, (∀ x, q x = true → p x = true) →
      (l.filter p).find? q = l.find? q := by
  intro l himp
  induction l with
  | nil => rfl
  | cons a t ih =>
    by_cases hq : q a = true
    · rw [List.filter_cons, if_pos (himp a hq), List.find?_cons_of_pos _ hq,
        List.find?_cons_of_pos _ hq]
    · by_cases hp : p a = true
      · rw [List.filter_cons, if_pos hp, List.find?_cons_of_neg _ hq,
          List.find?_cons_of_neg _ hq, ih]
      · rw [List.filter_cons, if_neg hp, List.find?_cons_of_neg _ hq, ih]

/-- C7: `Novel.status` moves only DRAFT → FINISHED.  Part 1: under every
operation of the module a FINISHED novel is never set back to DRAFT —
it either stays FINISHED or (only under the author-only novel DELETE of
`NovelDetailAPI`) ceases to exist.  Part 2: Complete, called by the
novel's author, sets status to FINISHED unconditionally. -/
theorem C7_status_transitions_one_way :
    (∀ (db : DB) (op : Op) (nid : Nat),
        statusOf db nid = some .finished →
        statusOf (applyOp db op) nid ≠ some .draft ∧
        (statusOf (applyOp db op) nid = some .finished ∨
          statusOf (applyOp db op) nid = none)) ∧
    (∀ (db : DB) (nid caller : Nat) (n : Novel),
        DB.findNovel db nid = some n → n.author = caller →
        statusOf (NovelCompleteAPI.post db nid caller).1 nid = some .finished) := by
  constructor
  · intro db op nid h
    have hd : statusOf (applyOp db op) nid = some .finished ∨
        statusOf (applyOp db op) nid = none := by
      cases op with
      | like n u =>
        refine Or.inl ?_
        show statusOf (NovelLikeAPI.create db n u).1 nid = some .finished
        unfold NovelLikeAPI.create NovelLikeAPI.perform_create
        cases hf : DB.findNovel db n with
        | none => exact h
        | some m =>
          dsimp only
          split
          · exact h
          · rename_i db1 is_created heq
            split at heq
            · cases heq; exact h
            · cases heq; exact h
      | commentCreate n a b =>
        refine Or.inl ?_
        show statusOf (NovelCommentAPI.perform_create db n a b).1 nid = some .finished
        unfold NovelCommentAPI.perform_create
        cases hf : DB.findNovel db n with
        | none => exact h
        | some m => exact h
      | commentDelete c =>
        refine Or.inl ?_
        show statusOf (NovelCommentDeleteAPI.destroy db c).1 nid = some .finished
        unfold NovelCommentDeleteAPI.destroy
        cases hf : db.comments.find? (fun x => x.id == c) with
        | none => exact h
        | some cm => exact h
      | detailHit n anon =>
        refine Or.inl ?_
        show statusOf (novel_hit db n anon) nid = some .finished
        unfold novel_hit
        split
        · exact h
        · exact h
      | completeOp n c =>
        refine Or.inl ?_
        show statusOf (NovelCompleteAPI.post db n c).1 nid = some .finished
        unfold NovelCompleteAPI.post
        cases hf : DB.findNovel db n with
        | none => exact h
        | some m =>
          dsimp only
          split
          · exact h
          · exact statusOf_update_preserve db m { m with status := .finished } n nid hf rfl
              (Or.inr rfl) h
      | coverImageOp n r =>
        refine Or.inl ?_
        show statusOf (NovelCoverImageAPI.post db n r).1 nid = some .finished
        unfold NovelCoverImageAPI.post
        cases hf : DB.findNovel db n with
        | none => exact h
        | some m =>
          dsimp only
          split
          · exact h
          · exact statusOf_update_preserve db m { m with cover_img := some ("novel_cover_" ++ toString m.id ++ ".png"), original_cover_img := some "original.png" } n nid hf rfl (Or.inl rfl) h
      | endOp n s r =>
        refine Or.inl ?_
        show statusOf (NovelEndAPI.post db n s r).1 nid = some .finished
        unfold NovelEndAPI.post
        cases hf : DB.findNovel db n with
        | none => exact h
        | some m =>
        dsimp only
        cases hc : DB.findContent db n s with
        | none => exact h
        | some nc =>
        dsimp only
        cases hl : Json.loads m.prompt with
        | none => exact h
        | some dh =>
        dsimp only
        cases hg : Json.dictGetOrNull dh "dialog_history" with
        | error e => exact h
        | ok _se =>
        dsimp only
        split
        · exact h
        · cases hko : Json.dictGetOpt r.json "korean_answer" with
          | error e => exact statusOf_update_preserve db m { m with prompt := Json.dumps dh } n nid hf rfl (Or.inl rfl) h
          | ok ans => exact statusOf_update_preserve db m { m with prompt := Json.dumps dh } n nid hf rfl (Or.inl rfl) h
      | continueOp req r1 r2 =>
        refine Or.inl ?_
        show statusOf (NovelContinueAPI.post db req r1 r2).1 nid = some .finished
        unfold NovelContinueAPI.post NovelContinueSerializer.save
        cases hf : DB.findNovel db req.novel_id with
        | none => exact h
        | some m =>
        dsimp only
        cases hc : DB.findContent db req.novel_id req.step with
        | none => exact h
        | some nc =>
        dsimp only
        cases hl : Json.loads m.prompt with
        | none => exact h
        | some dh =>
        dsimp only
        cases hg : Json.dictGetOrNull dh "dialog_history" with
        | error e => exact h
        | ok _se =>
        dsimp only
        split
        · exact h
        · cases hp1 : Json.dictPop r1.json "caption" with
          | error e => exact h
          | ok p1 =>
          obtain ⟨cap, rj1⟩ := p1
          dsimp only
          cases hp2 : Json.dictPop rj1 "korean_answer" with
          | error e => exact h
          | ok p2 =>
          obtain ⟨story, rj2⟩ := p2
          dsimp only
          cases hp3 : Json.dictPop rj2 "dialog_history" with
          | error e => exact h
          | ok p3 =>
          obtain ⟨dh3, rj3⟩ := p3
          dsimp only
          cases hq : retrieve_question_from_ai_json r2 with
          | error e => exact h
          | ok resp2 =>
          dsimp only
          cases hw : novel_content_with_query resp2 (get_next_novel_content
              { nc with content := some story, chosen_query := some req.selected_query }
              m.id) with
          | error e => exact statusOf_update_preserve _ m { m with prompt := Json.dumps resp2 } req.novel_id nid hf rfl (Or.inl rfl) h
          | ok next1 => exact statusOf_update_preserve _ m { m with prompt := Json.dumps resp2 } req.novel_id nid hf rfl (Or.inl rfl) h
      | startOp dm du req r1 r2 =>
        refine Or.inl ?_
        show statusOf (NovelStartAPI.post db dm du req r1 r2).1 nid = some .finished
        unfold NovelStartAPI.post
        split
        · exact h
        · rcases hsv : NovelStartSerializer.save db req with ⟨db1, novel, nc, images⟩
          have h5 : statusOf db1 nid = some .finished := by
            have hx := startSave_statusOf db req nid h
            rwa [hsv] at hx
          have hf5 : DB.findNovel db1 (DB.nextNovelId db) = some novel := by
            have hx := startSave_findNew db req
            rwa [hsv] at hx
          dsimp only
          split
          · exact h5
          · cases hp1 : Json.dictPop r1.json "korean_answer" with
            | error e => exact h5
            | ok p1 =>
            obtain ⟨story, rj1⟩ := p1
            dsimp only
            cases hp2 : Json.dictPop rj1 "dialog_history" with
            | error e => exact h5
            | ok p2 =>
            obtain ⟨dhv, rj2⟩ := p2
            dsimp only
            cases hq : retrieve_question_from_ai_json r2 with
            | error e => exact h5
            | ok resp2 =>
            dsimp only
            cases hp3 : Json.dictPop rj2 "caption" with
            | error e => exact h5
            | ok p3 =>
            obtain ⟨capv, rj3⟩ := p3
            dsimp only
            cases capv with
            | null => exact h5
            | bool b => exact h5
            | num x => exact h5
            | str str5 => exact h5
            | obj fs => exact h5
            | arr caps =>
              dsimp only
              cases ha : assignCaptions images caps with
              | error e => exact h5
              | ok images2 =>
                dsimp only
                cases hw : novel_content_with_query resp2 (get_next_novel_content
                    { nc with content := some story } novel.id) with
                | error e => exact h5
                | ok next1 => exact statusOf_update_preserve _ novel { novel with prompt := Json.dumps resp2 } (DB.nextNovelId db) nid hf5 rfl (Or.inl rfl) h5
      | novelDelete n c =>
        show statusOf (NovelDetailAPI.destroy db n c).1 nid = some .finished ∨
            statusOf (NovelDetailAPI.destroy db n c).1 nid = none
        unfold NovelDetailAPI.destroy
        cases hf : DB.findNovel db n with
        | none => exact Or.inl h
        | some m =>
          dsimp only
          split
          · exact Or.inl h
          · by_cases hnn : nid = n
            · subst hnn
              refine Or.inr ?_
              unfold statusOf DB.findNovel DB.deleteNovel
              dsimp only
              have hfind : (db.novels.filter (fun x => !(x.id == nid))).find?
                  (fun x => x.id == nid) = none := by
                rw [List.find?_eq_none]
                intro x hx hq
                have hpx := List.of_mem_filter hx
                simp at hpx hq
                exact hpx hq
              rw [hfind]
              rfl
            · refine Or.inl ?_
              unfold statusOf DB.findNovel at h
              unfold statusOf DB.findNovel DB.deleteNovel
              dsimp only at h ⊢
              rw [find?_filter_of_imp _ _ db.novels ?_]
              · exact h
              · intro x hxq
                simp at hxq ⊢
                omega
    refine ⟨?_, hd⟩
    rcases hd with hd | hd <;> rw [hd] <;> simp
  · intro db nid caller n hf hauth
    unfold NovelCompleteAPI.post
    rw [hf]
    dsimp only
    rw [if_neg (by simp [hauth])]
    rw [statusOf_updateNovel, hf]
    simp

/-- C7 witness: a like toggle leaves a FINISHED novel FINISHED, the
author's DELETE removes it without ever making it DRAFT, and the author
completing their draft novel makes it FINISHED. -/
theorem C7_status_transitions_one_way_witness :
    (statusOf (applyOp dbFinished (Op.like 1 2)) 1 ≠ some .draft ∧
      (statusOf (applyOp dbFinished (Op.like 1 2)) 1 = some .finished ∨
        statusOf (applyOp dbFinished (Op.like 1 2)) 1 = none)) ∧
    (statusOf (applyOp dbFinished (Op.novelDelete 1 5)) 1 ≠ some .draft ∧
      (statusOf (applyOp dbFinished (Op.novelDelete 1 5)) 1 = some .finished ∨
        statusOf (applyOp dbFinished (Op.novelDelete 1 5)) 1 = none)) ∧
    statusOf (NovelCompleteAPI.post dbDraft 1 5).1 1 = some .finished := by
  refine ⟨?_, ?_, ?_⟩
  · exact C7_status_transitions_one_way.1 dbFinished (Op.like 1 2) 1 rfl
  · exact C7_status_transitions_one_way.1 dbFinished (Op.novelDelete 1 5) 1 rfl
  · exact C7_status_transitions_one_way.2 dbDraft 1 5 novelA rfl rfl

/-! ### Counter lemmas for C8 -/

theorem filter_not_of_filter_eq_nil {α : Type} (p : α → Bool) :
    ∀ l : List α, l.filter p = [] → l.filter (fun a => !p a) = l := by
  intro l
  induction l with
  | nil => simp
  | cons a t ih =>
    intro h
    by_cases hpa : p a = true
    · simp [List.filter_cons, hpa] at h
    · have hpaf : p a = false := by simpa using hpa
      simp only [List.filter_cons, hpaf] at h
      simp [List.filter_cons, hpaf, ih h]

theorem likeCountOf_bumpLike (db : DB) (nid : Nat) (d : Int) (nid2 : Nat) :
    likeCountOf (DB.bumpLike db nid d) nid2
      = (db.stats.find? (fun s => s.novel_id == nid2)).map
          (fun s => if s.novel_id == nid then s.like_count + d else s.like_count) := by
  unfold likeCountOf DB.bumpLike
  dsimp only
  rw [find?_map_invariant (fun s => s.novel_id == nid2)
    (fun s => if s.novel_id == nid then { s with like_count := s.like_count + d } else s)
    (fun a => by by_cases hx : (a.novel_id == nid) = true <;> simp [hx]) db.stats]
  cases db.stats.find? (fun s => s.novel_id == nid2) with
  | none => rfl
  | some s => by_cases hx : s.novel_id = nid <;> simp [hx]

theorem likeCountOf_bumpLike_self (db : DB) (nid : Nat) (d : Int) :
    likeCountOf (DB.bumpLike db nid d) nid = (likeCountOf db nid).map (fun c => c + d) := by
  rw [likeCountOf_bumpLike]
  unfold likeCountOf
  cases hf : db.stats.find? (fun s => s.novel_id == nid) with
  | none => rfl
  | some s =>
    have hs : s.novel_id = nid := by simpa using List.find?_some hf
    simp [hs]

/-- C8: toggling the like twice from an unliked state restores it — no like
row for `(novel, user)` remains and the like counter returns to its
original value. -/
theorem C8_like_toggle_twice_restores :
    ∀ (db : DB) (novel_id user_id : Nat) (n : Novel),
      DB.findNovel db novel_id = some n →
      likeRowExists db novel_id user_id = false →
      likeRowExists (NovelLikeAPI.create (NovelLikeAPI.create db novel_id user_id).1
        novel_id user_id).1 novel_id user_id = false ∧
      likeCountOf (NovelLikeAPI.create (NovelLikeAPI.create db novel_id user_id).1
        novel_id user_id).1 novel_id = likeCountOf db novel_id := by
  intro db nid uid n hf hnl
  have hfil : db.likes.filter (fun l => l.novel_id == nid && l.user_id == uid) = [] := by
    unfold likeRowExists at hnl
    simpa using hnl
  have step1 : NovelLikeAPI.create db nid uid
      = (DB.bumpLike { db with likes := db.likes ++ [⟨nid, uid⟩] } nid 1, .respEmpty 204) := by
    unfold NovelLikeAPI.create NovelLikeAPI.perform_create
    rw [hf]
    dsimp only
    rw [hfil]
    rfl
  have hf2 : DB.findNovel (DB.bumpLike { db with likes := db.likes ++ [⟨nid, uid⟩] } nid 1) nid
      = some n := hf
  have hfil2 : (DB.bumpLike { db with likes := db.likes ++ [⟨nid, uid⟩] } nid 1).likes.filter
      (fun l => l.novel_id == nid && l.user_id == uid) = [⟨nid, uid⟩] := by
    show (db.likes ++ [({ novel_id := nid, user_id := uid } : NovelLike)]).filter
      (fun l => l.novel_id == nid && l.user_id == uid) = [{ novel_id := nid, user_id := uid }]
    rw [List.filter_append, hfil]
    simp
  have step2 : NovelLikeAPI.create (DB.bumpLike { db with likes := db.likes ++ [⟨nid, uid⟩] }
        nid 1) nid uid
      = (DB.bumpLike { (DB.bumpLike { db with likes := db.likes ++ [⟨nid, uid⟩] } nid 1) with
          likes := (DB.bumpLike { db with likes := db.likes ++ [⟨nid, uid⟩] } nid 1).likes.filter
            (fun l => !(l.novel_id == nid && l.user_id == uid)) } nid (-1), .resp 201 ()) := by
    unfold NovelLikeAPI.create NovelLikeAPI.perform_create
    rw [hf2]
    dsimp only
    rw [hfil2]
    rfl
  have hlikes0 : (db.likes ++ [(⟨nid, uid⟩ : NovelLike)]).filter
      (fun l => !(l.novel_id == nid && l.user_id == uid)) = db.likes := by
    rw [List.filter_append, filter_not_of_filter_eq_nil _ _ hfil]
    simp
  rw [step1]
  show likeRowExists (NovelLikeAPI.create (DB.bumpLike { db with
      likes := db.likes ++ [⟨nid, uid⟩] } nid 1) nid uid).1 nid uid = false ∧
    likeCountOf (NovelLikeAPI.create (DB.bumpLike { db with
      likes := db.likes ++ [⟨nid, uid⟩] } nid 1) nid uid).1 nid = likeCountOf db nid
  rw [step2]
  constructor
  · show (!(((db.likes ++ [(⟨nid, uid⟩ : NovelLike)]).filter
        (fun l => !(l.novel_id == nid && l.user_id == uid))).filter
        (fun l => l.novel_id == nid && l.user_id == uid)).isEmpty) = false
    rw [hlikes0, hfil]
    rfl
  · rw [likeCountOf_bumpLike_self]
    have hmid : likeCountOf { (DB.bumpLike { db with likes := db.likes ++ [⟨nid, uid⟩] }
          nid 1) with
        likes := (DB.bumpLike { db with likes := db.likes ++ [⟨nid, uid⟩] } nid 1).likes.filter
          (fun l => !(l.novel_id == nid && l.user_id == uid)) } nid
        = (likeCountOf db nid).map (fun c => c + 1) := by
      show likeCountOf (DB.bumpLike { db with likes := db.likes ++ [⟨nid, uid⟩] } nid 1) nid = _
      rw [likeCountOf_bumpLike_self]
      rfl
    rw [hmid]
    cases likeCountOf db nid with
    | none => rfl
    | some c => simp

/-- C8 witness: on the concrete one-novel store with no likes, two toggles
by user 7 leave no like row and a zero count again. -/
theorem C8_like_toggle_twice_restores_witness :
    likeRowExists (NovelLikeAPI.create (NovelLikeAPI.create dbDraft 1 7).1 1 7).1 1 7 = false ∧
    likeCountOf (NovelLikeAPI.create (NovelLikeAPI.create dbDraft 1 7).1 1 7).1 1
      = likeCountOf dbDraft 1 :=
  C8_like_toggle_twice_restores dbDraft 1 7 novelA rfl rfl

/-! ### Content and prompt lookup lemmas -/

theorem filter_map_invariant {α : Type} (p : α → Bool) (u : α → α)
    (hu : ∀ a, p (u a) = p a) :
    ∀ l : List α, (l.map u).filter p = (l.filter p).map u := by
  intro l
  induction l with
  | nil => rfl
  | cons a t ih =>
    by_cases hpa : p a = true
    · simp only [List.map_cons, List.filter_cons, hu, hpa, if_true, ih]
    · have hpaf : p a = false := by simpa using hpa
      simp only [List.map_cons, List.filter_cons, hu, hpaf, Bool.false_eq_true, if_false, ih]

theorem promptOf_updateNovel (db : DB) (n' : Novel) (nid : Nat) :
    promptOf (DB.updateNovel db n') nid
      = (DB.findNovel db nid).map (fun m => if m.id == n'.id then n'.prompt else m.prompt) := by
  unfold promptOf
  rw [findNovel_updateNovel]
  cases DB.findNovel db nid with
  | none => rfl
  | some m => by_cases hm : m.id = n'.id <;> simp [hm]

theorem findContent_updateContent (db : DB) (c : NovelContent) (nid st : Nat) :
    DB.findContent (DB.updateContent db c) nid st
      = (DB.findContent db nid st).map
          (fun x => if x.novel_id == c.novel_id && x.step == c.step then c else x) := by
  unfold DB.findContent DB.updateContent
  dsimp only
  apply find?_map_invariant
  intro a
  by_cases h : (a.novel_id == c.novel_id && a.step == c.step) = true
  · have h1 : a.novel_id = c.novel_id := by
      have := (Bool.and_eq_true _ _).mp h
      simpa using this.1
    have h2 : a.step = c.step := by
      have := (Bool.and_eq_true _ _).mp h
      simpa using this.2
    simp [h, h1, h2]
  · simp [h]

theorem findContent_insertContent_found (db : DB) (c x : NovelContent) (nid st : Nat)
    (h : DB.findContent db nid st = some x) :
    DB.findContent (DB.insertContent db c) nid st = some x := by
  unfold DB.findContent at h
  unfold DB.findContent DB.insertContent
  exact find?_append_some _ h

theorem findContent_insertContent_new (db : DB) (c : NovelContent) (nid st : Nat)
    (h : DB.findContent db nid st = none)
    (hc : (c.novel_id == nid && c.step == st) = true) :
    DB.findContent (DB.insertContent db c) nid st = some c := by
  unfold DB.findContent at h
  unfold DB.findContent DB.insertContent
  rw [find?_append_none _ h]
  simp [List.find?_cons, hc]

theorem contentsOf_updateContent (db : DB) (c : NovelContent) (nid : Nat) :
    contentsOf (DB.updateContent db c) nid
      = (contentsOf db nid).map
          (fun x => if x.novel_id == c.novel_id && x.step == c.step then c else x) := by
  unfold contentsOf DB.updateContent
  dsimp only
  apply filter_map_invariant
  intro a
  by_cases h : (a.novel_id == c.novel_id && a.step == c.step) = true
  · have h1 : a.novel_id = c.novel_id := by
      have := (Bool.and_eq_true _ _).mp h
      simpa using this.1
    have h2 : a.step = c.step := by
      have := (Bool.and_eq_true _ _).mp h
      simpa using this.2
    simp [h, h1, h2]
  · simp [h]

theorem contentsOf_insertContent (db : DB) (c : NovelContent) (nid : Nat) :
    contentsOf (DB.insertContent db c) nid
      = contentsOf db nid ++ List.filter (fun x => x.novel_id == nid) [c] := by
  unfold contentsOf DB.insertContent
  dsimp only
  rw [List.filter_append]

/-! ### Image batch lemmas for C5 -/

theorem mkImages_map_id (nid f s : Nat) :
    ∀ k i, (mkImages nid f s k i).map (fun x => x.id)
      = (List.range k).map (fun j => f + (i + j)) := by
  intro k
  induction k with
  | zero => intro i; rfl
  | succ k ih =>
    intro i
    rw [List.range_succ_eq_map]
    simp only [mkImages, List.map_cons, List.map_map, ih (i + 1)]
    refine List.cons_eq_cons.mpr ⟨by omega, ?_⟩
    apply List.map_congr_left
    intro j _
    simp only [Function.comp]
    omega

theorem mkImages_map_idx (nid f s : Nat) :
    ∀ k i, (mkImages nid f s k i).map (fun x => x.idx)
      = (List.range k).map (fun j => i + j) := by
  intro k
  induction k with
  | zero => intro i; rfl
  | succ k ih =>
    intro i
    rw [List.range_succ_eq_map]
    simp only [mkImages, List.map_cons, List.map_map, ih (i + 1)]
    refine List.cons_eq_cons.mpr ⟨by omega, ?_⟩
    apply List.map_congr_left
    intro j _
    simp only [Function.comp]
    omega

theorem mkImages_mem_facts (nid f s : Nat) :
    ∀ k i im, im ∈ mkImages nid f s k i →
      im.novel_id = nid ∧ im.step = s ∧ f + i ≤ im.id ∧ im.id < f + i + k := by
  intro k
  induction k with
  | zero => intro i im h; cases h
  | succ k ih =>
    intro i im h
    rcases List.mem_cons.mp h with rfl | h
    · exact ⟨rfl, rfl, by dsimp only; omega, by dsimp only; omega⟩
    · obtain ⟨h1, h2, h3, h4⟩ := ih (i + 1) im h
      exact ⟨h1, h2, by omega, by omega⟩

theorem mkImages_ids_nodup (nid f s : Nat) (k i : Nat) :
    ((mkImages nid f s k i).map (fun x => x.id)).Nodup := by
  rw [mkImages_map_id]
  exact (List.nodup_range k).map (fun a b h => by omega)

theorem assignCaptions_spec :
    ∀ (l : List NovelContentImage) (caps : List Json) (l2 : List NovelContentImage),
      assignCaptions l caps = .ok l2 →
      l2.map (fun x => x.id) = l.map (fun x => x.id) ∧
      l2.map (fun x => x.idx) = l.map (fun x => x.idx) ∧
      l2.map (fun x => x.novel_id) = l.map (fun x => x.novel_id) ∧
      l2.map (fun x => x.caption) = (caps.take l.length).map some := by
  intro l
  induction l with
  | nil =>
    intro caps l2 h
    cases caps with
    | nil =>
      simp only [assignCaptions] at h
      cases h
      simp
    | cons c cs =>
      simp only [assignCaptions] at h
      cases h
      simp
  | cons img rest ih =>
    intro caps l2 h
    cases caps with
    | nil => simp [assignCaptions] at h
    | cons c cs =>
      simp only [assignCaptions] at h
      cases hx : assignCaptions rest cs with
      | error e => rw [hx] at h; cases h
      | ok l2x =>
        rw [hx] at h
        simp only [Except.map] at h
        cases h
        obtain ⟨h1, h2, h3, h4⟩ := ih cs l2x hx
        simp [h1, h2, h3, h4, List.take_cons]

theorem map_find_upd_fresh (old upd : List NovelContentImage)
    (hfresh : ∀ o ∈ old, upd.find? (fun u => u.id == o.id) = none) :
    old.map (fun x => (upd.find? (fun u => u.id == x.id)).getD x) = old := by
  induction old with
  | nil => rfl
  | cons o os ih =>
    rw [List.map_cons, hfresh o (by simp)]
    rw [ih (fun x hx => hfresh x (by simp [hx]))]
    rfl

theorem map_find_upd (new upd : List NovelContentImage)
    (hids : upd.map (fun x => x.id) = new.map (fun x => x.id))
    (hnodup : (new.map (fun x => x.id)).Nodup) :
    new.map (fun x => (upd.find? (fun u => u.id == x.id)).getD x) = upd := by
  induction new generalizing upd with
  | nil =>
    cases upd with
    | nil => rfl
    | cons u us => simp at hids
  | cons n ns ih =>
    cases upd with
    | nil => simp at hids
    | cons u us =>
      simp only [List.map_cons, List.cons.injEq] at hids
      obtain ⟨hid1, hidrest⟩ := hids
      simp only [List.map_cons, List.nodup_cons] at hnodup
      rw [List.map_cons]
      have h1 : (List.find? (fun v => v.id == n.id) (u :: us)).getD n = u := by
        rw [List.find?_cons_of_pos _ (by simp [hid1])]
        rfl
      rw [h1]
      have h2 : ns.map (fun x => ((u :: us).find? (fun v => v.id == x.id)).getD x)
          = ns.map (fun x => (us.find? (fun v => v.id == x.id)).getD x) := by
        apply List.map_congr_left
        intro x hx
        have hne : u.id ≠ x.id := by
          intro he
          apply hnodup.1
          rw [← hid1, he]
          exact List.mem_map.mpr ⟨x, hx, rfl⟩
        rw [List.find?_cons_of_neg _ (by simp [hne])]
      rw [h2, ih us hidrest hnodup.2]

theorem filter_eq_self_of_all {α : Type} (p : α → Bool) :
    ∀ l : List α, (∀ a ∈ l, p a = true) → l.filter p = l := by
  intro l
  induction l with
  | nil => intro _; rfl
  | cons a t ih =>
    intro h
    rw [List.filter_cons, if_pos (h a (by simp)), ih (fun x hx => h x (by simp [hx]))]

theorem filter_eq_nil_of_none {α : Type} (p : α → Bool) :
    ∀ l : List α, (∀ a ∈ l, p a = false) → l.filter p = [] := by
  intro l
  induction l with
  | nil => intro _; rfl
  | cons a t ih =>
    intro h
    rw [List.filter_cons, if_neg (by simp [h a (by simp)]),
      ih (fun x hx => h x (by simp [hx]))]

/-! ### Handler behaviour lemmas (used by several claims) -/

theorem endApi_failure (db : DB) (novel_id step : Nat) (r : AiResponse) (novel : Novel)
    (nc : NovelContent) (dh sent : Json)
    (hf : DB.findNovel db novel_id = some novel)
    (hc : DB.findContent db novel_id step = some nc)
    (hl : Json.loads novel.prompt = some dh)
    (hg : Json.dictGetOrNull dh "dialog_history" = .ok sent)
    (hst : r.status_code ≠ 200) :
    NovelEndAPI.post db novel_id step r = (db, .exn .requestAIServerError) := by
  unfold NovelEndAPI.post
  rw [hf]
  try dsimp only
  rw [hc]
  try dsimp only
  rw [hl]
  try dsimp only
  rw [hg]
  try dsimp only
  rw [if_pos hst]

theorem endApi_success (db : DB) (novel_id step : Nat) (r : AiResponse) (novel : Novel)
    (nc : NovelContent) (dh sent : Json) (ans : Option Json)
    (hf : DB.findNovel db novel_id = some novel)
    (hc : DB.findContent db novel_id step = some nc)
    (hl : Json.loads novel.prompt = some dh)
    (hg : Json.dictGetOrNull dh "dialog_history" = .ok sent)
    (hst : r.status_code = 200)
    (hko : Json.dictGetOpt r.json "korean_answer" = .ok ans) :
    NovelEndAPI.post db novel_id step r
      = (DB.updateContent (DB.updateNovel db { novel with prompt := Json.dumps dh })
          { nc with content := ans },
        .resp 200 { id := novel.id, story := ans }) := by
  unfold NovelEndAPI.post
  rw [hf]
  try dsimp only
  rw [hc]
  try dsimp only
  rw [hl]
  try dsimp only
  rw [hg]
  try dsimp only
  rw [if_neg (fun hne => hne hst)]
  try dsimp only
  rw [hko]

theorem continueApi_seq_failure (db : DB) (req : ContinueRequest) (r1 r2 : AiResponse)
    (db1 : DB) (novel : Novel) (nc : NovelContent) (img : NovelContentImage) (dh sent : Json)
    (hsv : NovelContinueSerializer.save db req = .ok (db1, novel, nc, img))
    (hl : Json.loads novel.prompt = some dh)
    (hg : Json.dictGetOrNull dh "dialog_history" = .ok sent)
    (hst : r1.status_code ≠ 200) :
    NovelContinueAPI.post db req r1 r2 = (db1, .respEmpty 408) := by
  unfold NovelContinueAPI.post
  rw [hsv]
  try dsimp only
  rw [hl]
  try dsimp only
  rw [hg]
  try dsimp only
  rw [if_pos hst]

theorem continueApi_question_failure (db : DB) (req : ContinueRequest) (r1 r2 : AiResponse)
    (db1 : DB) (novel : Novel) (nc : NovelContent) (img : NovelContentImage)
    (dh sent cap rj1 story rj2 dh2 rj3 : Json)
    (hsv : NovelContinueSerializer.save db req = .ok (db1, novel, nc, img))
    (hl : Json.loads novel.prompt = some dh)
    (hg : Json.dictGetOrNull dh "dialog_history" = .ok sent)
    (hst1 : r1.status_code = 200)
    (hp1 : Json.dictPop r1.json "caption" = .ok (cap, rj1))
    (hp2 : Json.dictPop rj1 "korean_answer" = .ok (story, rj2))
    (hp3 : Json.dictPop rj2 "dialog_history" = .ok (dh2, rj3))
    (hq : r2.status_code ≠ 200) :
    NovelContinueAPI.post db req r1 r2 = (db1, .exn .requestAIServerError) := by
  unfold NovelContinueAPI.post
  rw [hsv]
  try dsimp only
  rw [hl]
  try dsimp only
  rw [hg]
  try dsimp only
  rw [if_neg (fun hne => hne hst1)]
  try dsimp only
  rw [hp1]
  try dsimp only
  rw [hp2]
  try dsimp only
  rw [hp3]
  try dsimp only
  unfold retrieve_question_from_ai_json
  rw [if_pos hq]

theorem continueApi_success (db : DB) (req : ContinueRequest) (r1 r2 : AiResponse)
    (db1 : DB) (novel : Novel) (nc : NovelContent) (img : NovelContentImage)
    (dh sent cap rj1 story rj2 dh2 rj3 : Json) (next1 : NovelContent)
    (hsv : NovelContinueSerializer.save db req = .ok (db1, novel, nc, img))
    (hl : Json.loads novel.prompt = some dh)
    (hg : Json.dictGetOrNull dh "dialog_history" = .ok sent)
    (hst1 : r1.status_code = 200)
    (hp1 : Json.dictPop r1.json "caption" = .ok (cap, rj1))
    (hp2 : Json.dictPop rj1 "korean_answer" = .ok (story, rj2))
    (hp3 : Json.dictPop rj2 "dialog_history" = .ok (dh2, rj3))
    (hq2 : r2.status_code = 200)
    (hw : novel_content_with_query r2.json (get_next_novel_content
        { nc with content := some story, chosen_query := some req.selected_query }
        novel.id) = .ok next1) :
    NovelContinueAPI.post db req r1 r2
      = (DB.updateContent
          (DB.insertContent
            (DB.updateContent
              (DB.updateNovel (DB.updateImage db1 { img with caption := some cap })
                { novel with prompt := Json.dumps r2.json })
              { nc with content := some story, chosen_query := some req.selected_query })
            (get_next_novel_content
              { nc with content := some story, chosen_query := some req.selected_query }
              novel.id))
          next1,
        .resp 200 { id := novel.id, caption := cap, step := nc.step, story := story }) := by
  unfold NovelContinueAPI.post
  rw [hsv]
  try dsimp only
  rw [hl]
  try dsimp only
  rw [hg]
  try dsimp only
  rw [if_neg (fun hne => hne hst1)]
  try dsimp only
  rw [hp1]
  try dsimp only
  rw [hp2]
  try dsimp only
  rw [hp3]
  try dsimp only
  unfold retrieve_question_from_ai_json
  rw [if_neg (fun hne => hne hq2)]
  try dsimp only
  rw [hw]

theorem startApi_failure (db : DB) (req : StartRequest) (r1 r2 : AiResponse)
    (hst : r1.status_code ≠ 200) :
    NovelStartAPI.post db false false req r1 r2
      = ((NovelStartSerializer.save db req).1, .exn .requestAIServerError) := by
  unfold NovelStartAPI.post
  rw [if_neg (by decide : ¬((false && !false) = true))]
  rcases hsv : NovelStartSerializer.save db req with ⟨db1, novel, nc, images⟩
  try dsimp only
  rw [if_pos hst]

theorem startApi_success (db : DB) (req : StartRequest) (r1 r2 : AiResponse)
    (db1 : DB) (novel : Novel) (nc : NovelContent) (images : List NovelContentImage)
    (story rj1 dhv rj2 rj3 : Json) (caps : List Json)
    (images2 : List NovelContentImage) (next1 : NovelContent)
    (hsv : NovelStartSerializer.save db req = (db1, novel, nc, images))
    (hst1 : r1.status_code = 200)
    (hp1 : Json.dictPop r1.json "korean_answer" = .ok (story, rj1))
    (hp2 : Json.dictPop rj1 "dialog_history" = .ok (dhv, rj2))
    (hq2 : r2.status_code = 200)
    (hp3 : Json.dictPop rj2 "caption" = .ok (.arr caps, rj3))
    (ha : assignCaptions images caps = .ok images2)
    (hw : novel_content_with_query r2.json
        (get_next_novel_content { nc with content := some story } novel.id) = .ok next1) :
    NovelStartAPI.post db false false req r1 r2
      = (DB.updateNovel
          (DB.updateContent
            (DB.insertContent
              (DB.updateContent (DB.updateImages db1 images2) { nc with content := some story })
              (get_next_novel_content { nc with content := some story } novel.id))
            next1)
          { novel with prompt := Json.dumps r2.json },
        .resp 200
          { id := novel.id, step := 1, story := story, captions := caps.take req.image_count,
            genre_label := genre_dict novel.genre }) := by
  unfold NovelStartAPI.post
  rw [if_neg (by decide : ¬((false && !false) = true))]
  rw [hsv]
  try dsimp only
  rw [if_neg (fun hne => hne hst1)]
  try dsimp only
  rw [hp1]
  try dsimp only
  rw [hp2]
  try dsimp only
  unfold retrieve_question_from_ai_json
  rw [if_neg (fun hne => hne hq2)]
  try dsimp only
  rw [hp3]
  try dsimp only
  rw [ha]
  try dsimp only
  rw [hw]

/-! ### Serializer elimination and query-population lemmas -/

theorem continueSave_elim (db : DB) (req : ContinueRequest) (db1 : DB) (novel : Novel)
    (nc : NovelContent) (img : NovelContentImage)
    (hsv : NovelContinueSerializer.save db req = .ok (db1, novel, nc, img)) :
    DB.findNovel db req.novel_id = some novel ∧
    DB.findContent db req.novel_id req.step = some nc ∧
    db1 = { db with images := db.images ++ [img] } := by
  unfold NovelContinueSerializer.save at hsv
  cases hf : DB.findNovel db req.novel_id with
  | none => rw [hf] at hsv; cases hsv
  | some m =>
    rw [hf] at hsv
    dsimp only at hsv
    cases hc : DB.findContent db req.novel_id req.step with
    | none => rw [hc] at hsv; cases hsv
    | some c0 =>
      rw [hc] at hsv
      dsimp only at hsv
      cases hsv
      exact ⟨rfl, rfl, rfl⟩

theorem novel_content_with_query_ok (resp : Json) (nc0 : NovelContent)
    (q1v q2v q3v : Option Json)
    (h1 : Json.dictGetOpt resp "query1" = .ok q1v)
    (h2 : Json.dictGetOpt resp "query2" = .ok q2v)
    (h3 : Json.dictGetOpt resp "query3" = .ok q3v) :
    novel_content_with_query resp nc0
      = .ok { nc0 with query1 := q1v, query2 := q2v, query3 := q3v } := by
  unfold novel_content_with_query
  rw [h1]
  try dsimp only [Except.bind]
  rw [h2]
  try dsimp only [Except.bind]
  rw [h3]
  rfl

theorem dbContinue_save :
    NovelContinueSerializer.save dbContinue creq = .ok (dbContinue1, novelP, step2C, imgC) := rfl

theorem novelP_loads : Json.loads novelP.prompt = some qPayloadA := Json.loads_dumps qPayloadA

/-! ### C3 -/

/-- C3 counterexample: during a Continue whose sequence call succeeds but
whose question call fails (HTTP 500), the handler raises
`RequestAIServerError` — not the claimed HTTP-408-style response — though
still no `NovelContent` row is created. -/
theorem C3_question_failure_raises_counterexample :
    NovelContinueAPI.post dbContinue creq ⟨200, seqPayloadA⟩ ⟨500, Json.null⟩
      = (dbContinue1, .exn .requestAIServerError) ∧
    (NovelContinueAPI.post dbContinue creq ⟨200, seqPayloadA⟩ ⟨500, Json.null⟩).2
      ≠ .respEmpty 408 ∧
    dbContinue1.contents = dbContinue.contents := by
  have h := continueApi_question_failure dbContinue creq ⟨200, seqPayloadA⟩ ⟨500, Json.null⟩
    dbContinue1 novelP step2C imgC qPayloadA _ _ _ _ _ _ _
    dbContinue_save novelP_loads rfl rfl rfl rfl rfl (by decide)
  refine ⟨h, ?_, rfl⟩
  rw [h]
  simp

/-- C3 (amended): on a Continue request, a non-success status from the
*sequence* call yields the retriable 408 response, while a non-success
status from the *question* call raises `RequestAIServerError`; in both
cases no new `NovelContent` row is created (the serializer only added the
uploaded image, so the content table is exactly as before the request). -/
theorem C3_continue_upstream_failure :
    ∀ (db : DB) (req : ContinueRequest) (r1 r2 : AiResponse) (db1 : DB) (novel : Novel)
      (nc : NovelContent) (img : NovelContentImage) (dh sent : Json),
      NovelContinueSerializer.save db req = .ok (db1, novel, nc, img) →
      Json.loads novel.prompt = some dh →
      Json.dictGetOrNull dh "dialog_history" = .ok sent →
      ((r1.status_code ≠ 200 →
          NovelContinueAPI.post db req r1 r2 = (db1, .respEmpty 408) ∧
          db1.contents = db.contents) ∧
        (∀ cap rj1 story rj2 dh2 rj3,
          r1.status_code = 200 →
          Json.dictPop r1.json "caption" = .ok (cap, rj1) →
          Json.dictPop rj1 "korean_answer" = .ok (story, rj2) →
          Json.dictPop rj2 "dialog_history" = .ok (dh2, rj3) →
          r2.status_code ≠ 200 →
          NovelContinueAPI.post db req r1 r2 = (db1, .exn .requestAIServerError) ∧
          db1.contents = db.contents)) := by
  intro db req r1 r2 db1 novel nc img dh sent hsv hl hg
  have helim := continueSave_elim db req db1 novel nc img hsv
  have hcontents : db1.contents = db.contents := by rw [helim.2.2]
  constructor
  · intro hst
    exact ⟨continueApi_seq_failure db req r1 r2 db1 novel nc img dh sent hsv hl hg hst,
      hcontents⟩
  · intro cap rj1 story rj2 dh2 rj3 hst1 hp1 hp2 hp3 hq
    exact ⟨continueApi_question_failure db req r1 r2 db1 novel nc img dh sent cap rj1 story
      rj2 dh2 rj3 hsv hl hg hst1 hp1 hp2 hp3 hq, hcontents⟩

/-- C3 witness: on the fixture store, a failing sequence call yields the
408 response and leaves the content table unchanged. -/
theorem C3_continue_upstream_failure_witness :
    NovelContinueAPI.post dbContinue creq ⟨500, Json.null⟩ ⟨200, qPayloadB⟩
      = (dbContinue1, .respEmpty 408) ∧
    dbContinue1.contents = dbContinue.contents :=
  (C3_continue_upstream_failure dbContinue creq ⟨500, Json.null⟩ ⟨200, qPayloadB⟩ dbContinue1
    novelP step2C imgC qPayloadA _ dbContinue_save novelP_loads rfl).1 (by decide)

/-! ### C4 -/

/-- C4 counterexample: a fully successful Continue at step 2 responds with
`step = 2` (the just-completed step), while the newly created current step
is 3 — the response's step field does not report the new current step. -/
theorem C4_response_step_counterexample :
    (NovelContinueAPI.post dbContinue creq ⟨200, seqPayloadA⟩ ⟨200, qPayloadB⟩).2
      = .resp 200 { id := 1, caption := .str "cap2", step := 2, story := .str "story2" } ∧
    DB.findContent (NovelContinueAPI.post dbContinue creq ⟨200, seqPayloadA⟩ ⟨200, qPayloadB⟩).1
        1 3
      = some ⟨1, 3, none, none, some (.str "R1"), some (.str "R2"), some (.str "R3")⟩ ∧
    (2 : Nat) ≠ 3 := by
  have h := continueApi_success dbContinue creq ⟨200, seqPayloadA⟩ ⟨200, qPayloadB⟩
    dbContinue1 novelP step2C imgC qPayloadA _ _ _ _ _ _ _
    ⟨1, 3, none, none, some (.str "R1"), some (.str "R2"), some (.str "R3")⟩
    dbContinue_save novelP_loads rfl rfl rfl rfl rfl rfl rfl
  refine ⟨by rw [h]; rfl, ?_, by decide⟩
  rw [h]
  rfl

/-- C4 (amended): for every successful Continue at step k, the handler sets
step k's `chosen_query` to the selected query and its `content` to the
returned story, and creates NovelContent step k+1 pre-populated with exactly
the three candidate queries of the question response; but the response's
`step` field reports the just-completed step k, not the new current step
k+1. -/
theorem C4_continue_success_updates :
    ∀ (db : DB) (req : ContinueRequest) (r1 r2 : AiResponse) (db1 : DB) (novel : Novel)
      (nc : NovelContent) (img : NovelContentImage)
      (dh sent cap rj1 story rj2 dh2 rj3 q1v q2v q3v : Json),
      NovelContinueSerializer.save db req = .ok (db1, novel, nc, img) →
      Json.loads novel.prompt = some dh →
      Json.dictGetOrNull dh "dialog_history" = .ok sent →
      r1.status_code = 200 →
      Json.dictPop r1.json "caption" = .ok (cap, rj1) →
      Json.dictPop rj1 "korean_answer" = .ok (story, rj2) →
      Json.dictPop rj2 "dialog_history" = .ok (dh2, rj3) →
      r2.status_code = 200 →
      Json.dictGetOpt r2.json "query1" = .ok (some q1v) →
      Json.dictGetOpt r2.json "query2" = .ok (some q2v) →
      Json.dictGetOpt r2.json "query3" = .ok (some q3v) →
      DB.findContent db req.novel_id (nc.step + 1) = none →
      (nc.step = req.step ∧ novel.id = req.novel_id) ∧
      (NovelContinueAPI.post db req r1 r2).2
        = .resp 200 { id := novel.id, caption := cap, step := nc.step, story := story } ∧
      DB.findContent (NovelContinueAPI.post db req r1 r2).1 req.novel_id nc.step
        = some { nc with content := some story, chosen_query := some req.selected_query } ∧
      DB.findContent (NovelContinueAPI.post db req r1 r2).1 req.novel_id (nc.step + 1)
        = some ⟨req.novel_id, nc.step + 1, none, none, some q1v, some q2v, some q3v⟩ := by
  intro db req r1 r2 db1 novel nc img dh sent cap rj1 story rj2 dh2 rj3 q1v q2v q3v
  intro hsv hl hg hst1 hp1 hp2 hp3 hq2 hq1g hq2g hq3g hnone
  have helim := continueSave_elim db req db1 novel nc img hsv
  have hfind : db.novels.find? (fun n => n.id == req.novel_id) = some novel := helim.1
  have hnid : novel.id = req.novel_id := by
    have h := List.find?_some hfind
    simpa using h
  have hcont : db.contents.find? (fun c => c.novel_id == req.novel_id && c.step == req.step)
      = some nc := helim.2.1
  have hkey := List.find?_some hcont
  have hncstep : nc.step = req.step := by
    have h := (Bool.and_eq_true _ _).mp hkey
    simpa using h.2
  have hw := novel_content_with_query_ok r2.json
    (get_next_novel_content { nc with content := some story, chosen_query := some req.selected_query } novel.id)
    (some q1v) (some q2v) (some q3v) hq1g hq2g hq3g
  have heq := continueApi_success db req r1 r2 db1 novel nc img dh sent cap rj1 story rj2
    dh2 rj3 _ hsv hl hg hst1 hp1 hp2 hp3 hq2 hw
  have hne : ¬(nc.step = nc.step + 1) := by omega
  have hX : DB.findContent
      (DB.updateNovel (DB.updateImage db1 { img with caption := some cap })
        { novel with prompt := Json.dumps r2.json }) req.novel_id nc.step = some nc := by
    have h0 : DB.findContent db req.novel_id nc.step = some nc := by
      rw [hncstep]; exact helim.2.1
    rw [helim.2.2]
    exact h0
  have s1 : DB.findContent (DB.updateContent
      (DB.updateNovel (DB.updateImage db1 { img with caption := some cap })
        { novel with prompt := Json.dumps r2.json })
      { nc with content := some story, chosen_query := some req.selected_query })
      req.novel_id nc.step
      = some { nc with content := some story, chosen_query := some req.selected_query } := by
    rw [findContent_updateContent, hX]
    simp
  have s3 : DB.findContent (NovelContinueAPI.post db req r1 r2).1 req.novel_id nc.step
      = some { nc with content := some story, chosen_query := some req.selected_query } := by
    rw [heq]
    dsimp only
    rw [findContent_updateContent, findContent_insertContent_found _ _ _ _ _ s1]
    simp [get_next_novel_content, hne]
  have hX2 : DB.findContent
      (DB.updateNovel (DB.updateImage db1 { img with caption := some cap })
        { novel with prompt := Json.dumps r2.json }) req.novel_id (nc.step + 1) = none := by
    rw [helim.2.2]
    exact hnone
  have t1 : DB.findContent (DB.updateContent
      (DB.updateNovel (DB.updateImage db1 { img with caption := some cap })
        { novel with prompt := Json.dumps r2.json })
      { nc with content := some story, chosen_query := some req.selected_query })
      req.novel_id (nc.step + 1) = none := by
    rw [findContent_updateContent, hX2]
    rfl
  have hkey2 : ((get_next_novel_content
        { nc with content := some story, chosen_query := some req.selected_query }
        novel.id).novel_id == req.novel_id
      && (get_next_novel_content
        { nc with content := some story, chosen_query := some req.selected_query }
        novel.id).step == nc.step + 1) = true := by
    simp [get_next_novel_content, hnid]
  have t2 := findContent_insertContent_new _ (get_next_novel_content
      { nc with content := some story, chosen_query := some req.selected_query } novel.id)
      req.novel_id (nc.step + 1) t1 hkey2
  have t3 : DB.findContent (NovelContinueAPI.post db req r1 r2).1 req.novel_id (nc.step + 1)
      = some ⟨req.novel_id, nc.step + 1, none, none, some q1v, some q2v, some q3v⟩ := by
    rw [heq]
    dsimp only
    rw [findContent_updateContent, t2]
    simp [get_next_novel_content, hnid]
  exact ⟨⟨hncstep, hnid⟩, by rw [heq], s3, t3⟩

/-- C4 witness: the amended theorem instantiated on the fixture Continue. -/
theorem C4_continue_success_updates_witness :
    (step2C.step = creq.step ∧ novelP.id = creq.novel_id) ∧
    (NovelContinueAPI.post dbContinue creq ⟨200, seqPayloadA⟩ ⟨200, qPayloadB⟩).2
      = .resp 200 { id := novelP.id, caption := .str "cap2", step := step2C.step, story := .str "story2" } ∧
    DB.findContent (NovelContinueAPI.post dbContinue creq ⟨200, seqPayloadA⟩ ⟨200, qPayloadB⟩).1
        creq.novel_id step2C.step
      = some { step2C with content := some (.str "story2"), chosen_query := some creq.selected_query } ∧
    DB.findContent (NovelContinueAPI.post dbContinue creq ⟨200, seqPayloadA⟩ ⟨200, qPayloadB⟩).1
        creq.novel_id (step2C.step + 1)
      = some ⟨creq.novel_id, step2C.step + 1, none, none, some (.str "R1"), some (.str "R2"),
          some (.str "R3")⟩ :=
  C4_continue_success_updates dbContinue creq ⟨200, seqPayloadA⟩ ⟨200, qPayloadB⟩ dbContinue1
    novelP step2C imgC qPayloadA _ _ _ _ _ _ _ (.str "R1") (.str "R2") (.str "R3")
    dbContinue_save novelP_loads rfl rfl rfl rfl rfl rfl rfl rfl rfl rfl

/-! ### C5 -/

theorem startSave_elim (db : DB) (req : StartRequest) (db1 : DB) (novel : Novel)
    (nc : NovelContent) (images : List NovelContentImage)
    (hsv : NovelStartSerializer.save db req = (db1, novel, nc, images)) :
    novel = ⟨DB.nextNovelId db, req.author, req.genre, .draft, "", none, none⟩ ∧
    nc = ⟨DB.nextNovelId db, 1, none, none, none, none, none⟩ ∧
    images = mkImages (DB.nextNovelId db) (DB.nextImageId db) 1 req.image_count 0 ∧
    db1.novels = db.novels ++ [novel] ∧
    db1.contents = db.contents ++ [nc] ∧
    db1.images = db.images ++ images ∧
    db1.stats = db.stats ++ [⟨DB.nextNovelId db, 0, 0, 0⟩] := by
  unfold NovelStartSerializer.save at hsv
  dsimp only at hsv
  cases hsv
  exact ⟨rfl, rfl, rfl, rfl, rfl, rfl, rfl⟩

/-- C5: a successful Start with N uploaded images assigns exactly N
captions, the i-th upstream caption to the i-th image in submitted order,
and leaves the new novel with exactly two NovelContent rows: step 1 with
its content filled and step 2 pre-populated with the three candidate
queries.  (`NovelStartSerializer.save` is modelled from the spec.) -/
theorem C5_start_two_steps_and_positional_captions :
    ∀ (db : DB) (req : StartRequest) (r1 r2 : AiResponse) (db1 : DB) (novel : Novel)
      (nc : NovelContent) (images : List NovelContentImage)
      (story rj1 dhv rj2 rj3 : Json) (caps : List Json) (images2 : List NovelContentImage)
      (q1v q2v q3v : Json),
      NovelStartSerializer.save db req = (db1, novel, nc, images) →
      r1.status_code = 200 →
      Json.dictPop r1.json "korean_answer" = .ok (story, rj1) →
      Json.dictPop rj1 "dialog_history" = .ok (dhv, rj2) →
      r2.status_code = 200 →
      Json.dictPop rj2 "caption" = .ok (.arr caps, rj3) →
      assignCaptions images caps = .ok images2 →
      Json.dictGetOpt r2.json "query1" = .ok (some q1v) →
      Json.dictGetOpt r2.json "query2" = .ok (some q2v) →
      Json.dictGetOpt r2.json "query3" = .ok (some q3v) →
      1 ≤ req.image_count →
      (∀ c ∈ db.contents, c.novel_id ≠ DB.nextNovelId db) →
      (∀ im ∈ db.images, im.novel_id ≠ DB.nextNovelId db) →
      (imagesOf (NovelStartAPI.post db false false req r1 r2).1 novel.id).length
          = req.image_count ∧
      (imagesOf (NovelStartAPI.post db false false req r1 r2).1 novel.id).map
          (fun im => im.caption) = (caps.take req.image_count).map some ∧
      (imagesOf (NovelStartAPI.post db false false req r1 r2).1 novel.id).map
          (fun im => im.idx) = List.range req.image_count ∧
      contentsOf (NovelStartAPI.post db false false req r1 r2).1 novel.id
        = [⟨novel.id, 1, some story, none, none, none, none⟩,
            ⟨novel.id, 2, none, none, some q1v, some q2v, some q3v⟩] := by
  intro db req r1 r2 db1 novel nc images story rj1 dhv rj2 rj3 caps images2 q1v q2v q3v
  intro hsv hst1 hp1 hp2 hq2 hp3 ha hq1g hq2g hq3g hN hcfk hifk
  obtain ⟨hnovel, hnc, himgs, hn1, hc1, hi1, hs1⟩ := startSave_elim db req db1 novel nc images hsv
  subst hnovel
  subst hnc
  subst himgs
  obtain ⟨hids2, hidx2, hnids2, hcaps2⟩ := assignCaptions_spec _ caps images2 ha
  have hw := novel_content_with_query_ok r2.json
    (get_next_novel_content ⟨DB.nextNovelId db, 1, some story, none, none, none, none⟩
      (DB.nextNovelId db)) (some q1v) (some q2v) (some q3v) hq1g hq2g hq3g
  have heq := startApi_success db req r1 r2 db1 _ _ _ story rj1 dhv rj2 rj3 caps images2 _
    hsv hst1 hp1 hp2 hq2 hp3 ha hw
  have hlenimg : (mkImages (DB.nextNovelId db) (DB.nextImageId db) 1 req.image_count 0).length
      = req.image_count := by
    have h := congrArg List.length
      (mkImages_map_idx (DB.nextNovelId db) (DB.nextImageId db) 1 req.image_count 0)
    simpa using h
  have hfi : DB.nextImageId db = (db.images.foldr (fun n a => max n.id a) 0) + 1 := rfl
  have hfresh : ∀ o ∈ db.images, images2.find? (fun u => u.id == o.id) = none := by
    intro o ho
    rw [List.find?_eq_none]
    intro u hu hueq
    have hueq2 : u.id = o.id := by simpa using hueq
    have hmem : u.id ∈ images2.map (fun x => x.id) := List.mem_map_of_mem _ hu
    rw [hids2] at hmem
    obtain ⟨im, him, himid⟩ := List.mem_map.mp hmem
    obtain ⟨-, -, hlow, -⟩ := mkImages_mem_facts _ _ _ _ _ im him
    have hole : o.id ≤ db.images.foldr (fun n a => max n.id a) 0 :=
      foldr_max_ge (fun x => x.id) db.images o ho
    omega
  have hnodup : ((mkImages (DB.nextNovelId db) (DB.nextImageId db) 1 req.image_count 0).map
      (fun x => x.id)).Nodup := mkImages_ids_nodup _ _ _ _ _
  have himages : (DB.updateImages db1 images2).images = db.images ++ images2 := by
    show (db1.images.map (fun x => (images2.find? (fun u => u.id == x.id)).getD x))
        = db.images ++ images2
    rw [hi1, List.map_append, map_find_upd_fresh db.images images2 hfresh,
      map_find_upd _ images2 hids2 hnodup]
  have hiof : imagesOf (NovelStartAPI.post db false false req r1 r2).1 (DB.nextNovelId db)
      = images2 := by
    rw [heq]
    dsimp only
    show (DB.updateImages db1 images2).images.filter
        (fun im => im.novel_id == DB.nextNovelId db) = images2
    rw [himages, List.filter_append,
      filter_eq_nil_of_none _ db.images (fun im him => by simpa using hifk im him),
      filter_eq_self_of_all _ images2 ?hall]
    case hall =>
      intro u hu
      have hmem : u.novel_id ∈ images2.map (fun x => x.novel_id) := List.mem_map_of_mem _ hu
      rw [hnids2] at hmem
      obtain ⟨im, him, himn⟩ := List.mem_map.mp hmem
      obtain ⟨hni, -, -, -⟩ := mkImages_mem_facts _ _ _ _ _ im him
      simp [← himn, hni]
    rfl
  have cNov : ∀ (d : DB) (n : Novel) (x : Nat),
      contentsOf (DB.updateNovel d n) x = contentsOf d x := fun _ _ _ => rfl
  have cImgs : ∀ (d : DB) (u : List NovelContentImage) (x : Nat),
      contentsOf (DB.updateImages d u) x = contentsOf d x := fun _ _ _ => rfl
  have hbase : contentsOf db1 (DB.nextNovelId db)
      = [(⟨DB.nextNovelId db, 1, none, none, none, none, none⟩ : NovelContent)] := by
    unfold contentsOf
    rw [hc1, List.filter_append,
      filter_eq_nil_of_none _ db.contents (fun c hc => by simpa using hcfk c hc)]
    simp
  refine ⟨?_, ?_, ?_, ?_⟩
  · show (imagesOf (NovelStartAPI.post db false false req r1 r2).1
        (DB.nextNovelId db)).length = req.image_count
    rw [hiof]
    have h := congrArg List.length hidx2
    simp only [List.length_map] at h
    rw [h, hlenimg]
  · show (imagesOf (NovelStartAPI.post db false false req r1 r2).1 (DB.nextNovelId db)).map
        (fun im => im.caption) = (caps.take req.image_count).map some
    rw [hiof, hcaps2, hlenimg]
  · show (imagesOf (NovelStartAPI.post db false false req r1 r2).1 (DB.nextNovelId db)).map
        (fun im => im.idx) = List.range req.image_count
    rw [hiof, hidx2, mkImages_map_idx]
    simp
  · show contentsOf (NovelStartAPI.post db false false req r1 r2).1 (DB.nextNovelId db)
        = [⟨DB.nextNovelId db, 1, some story, none, none, none, none⟩,
            ⟨DB.nextNovelId db, 2, none, none, some q1v, some q2v, some q3v⟩]
    rw [heq]
    dsimp only
    rw [cNov, contentsOf_updateContent, contentsOf_insertContent, contentsOf_updateContent,
      cImgs, hbase]
    simp [get_next_novel_content]

/-- C5 witness: a concrete successful Start with two images on the empty
store. -/
theorem C5_start_two_steps_and_positional_captions_witness :
    (imagesOf (NovelStartAPI.post ⟨[], [], [], [], [], []⟩ false false ⟨7, 2, 2⟩
        ⟨200, startPayloadA⟩ ⟨200, qPayloadA⟩).1 1).length = 2 ∧
    (imagesOf (NovelStartAPI.post ⟨[], [], [], [], [], []⟩ false false ⟨7, 2, 2⟩
        ⟨200, startPayloadA⟩ ⟨200, qPayloadA⟩).1 1).map (fun im => im.caption)
      = [some (.str "c0"), some (.str "c1")] ∧
    (imagesOf (NovelStartAPI.post ⟨[], [], [], [], [], []⟩ false false ⟨7, 2, 2⟩
        ⟨200, startPayloadA⟩ ⟨200, qPayloadA⟩).1 1).map (fun im => im.idx)
      = List.range 2 ∧
    contentsOf (NovelStartAPI.post ⟨[], [], [], [], [], []⟩ false false ⟨7, 2, 2⟩
        ⟨200, startPayloadA⟩ ⟨200, qPayloadA⟩).1 1
      = [⟨1, 1, some (.str "story1"), none, none, none, none⟩,
          ⟨1, 2, none, none, some (.str "Q1"), some (.str "Q2"), some (.str "Q3")⟩] :=
  C5_start_two_steps_and_positional_captions ⟨[], [], [], [], [], []⟩ ⟨7, 2, 2⟩
    ⟨200, startPayloadA⟩ ⟨200, qPayloadA⟩
    ⟨[⟨1, 7, 2, .draft, "", none, none⟩], [⟨1, 1, none, none, none, none, none⟩],
      [⟨1, 1, 1, 0, none⟩, ⟨2, 1, 1, 1, none⟩], [⟨1, 0, 0, 0⟩], [], []⟩
    ⟨1, 7, 2, .draft, "", none, none⟩ ⟨1, 1, none, none, none, none, none⟩
    [⟨1, 1, 1, 0, none⟩, ⟨2, 1, 1, 1, none⟩]
    (.str "story1") _ _ _ _ [.str "c0", .str "c1"]
    [⟨1, 1, 1, 0, some (.str "c0")⟩, ⟨2, 1, 1, 1, some (.str "c1")⟩]
    (.str "Q1") (.str "Q2") (.str "Q3")
    rfl rfl rfl rfl rfl rfl rfl rfl rfl rfl (by decide) (by simp) (by simp)

/-! ### C6 -/

/-- C6: an upstream failure during Start or End raises
`RequestAIServerError`; `Novel.status` is unchanged (the new Start novel
stays DRAFT, every other novel keeps its status; End leaves the store
untouched), and every write committed before the failed call — the Novel
row, the step-1 NovelContent row, the attached images — remains persisted.
(`NovelStartSerializer.save` is modelled from the spec.) -/
theorem C6_start_end_failure_aborts :
    (∀ (db : DB) (req : StartRequest) (r1 r2 : AiResponse) (db1 : DB) (novel : Novel)
        (nc : NovelContent) (images : List NovelContentImage),
      NovelStartSerializer.save db req = (db1, novel, nc, images) →
      r1.status_code ≠ 200 →
      (∀ c ∈ db.contents, c.novel_id ≠ DB.nextNovelId db) →
      NovelStartAPI.post db false false req r1 r2 = (db1, .exn .requestAIServerError) ∧
      statusOf db1 novel.id = some .draft ∧
      (∀ nid, nid ≠ DB.nextNovelId db → statusOf db1 nid = statusOf db nid) ∧
      DB.findNovel db1 novel.id = some novel ∧
      DB.findContent db1 novel.id 1 = some nc ∧
      db1.images = db.images ++ images) ∧
    (∀ (db : DB) (novel_id step : Nat) (r : AiResponse) (novel : Novel) (nc : NovelContent)
        (dh sent : Json),
      DB.findNovel db novel_id = some novel →
      DB.findContent db novel_id step = some nc →
      Json.loads novel.prompt = some dh →
      Json.dictGetOrNull dh "dialog_history" = .ok sent →
      r.status_code ≠ 200 →
      NovelEndAPI.post db novel_id step r = (db, .exn .requestAIServerError)) := by
  constructor
  · intro db req r1 r2 db1 novel nc images hsv hst hcfk
    obtain ⟨hnovel, hnc, himgs, hn1, hc1, hi1, hs1⟩ := startSave_elim db req db1 novel nc images hsv
    subst hnovel
    subst hnc
    subst himgs
    have h := startApi_failure db req r1 r2 hst
    rw [hsv] at h
    have hfn := startSave_findNew db req
    rw [hsv] at hfn
    dsimp only at hfn
    refine ⟨by rw [h], ?_, ?_, hfn, ?_, hi1⟩
    · show statusOf db1 (DB.nextNovelId db) = some .draft
      unfold statusOf
      rw [hfn]
      rfl
    · intro nid hne
      unfold statusOf DB.findNovel
      rw [hn1]
      cases hfo : db.novels.find? (fun n => n.id == nid) with
      | some m => rw [find?_append_some _ hfo]
      | none =>
        rw [find?_append_none _ hfo,
          List.find?_cons_of_neg _ (by simp; omega)]
        rfl
    · show DB.findContent db1 (DB.nextNovelId db) 1
          = some ⟨DB.nextNovelId db, 1, none, none, none, none, none⟩
      unfold DB.findContent
      rw [hc1]
      rw [find?_append_none _ (by
        rw [List.find?_eq_none]
        intro c hc hcc
        exact hcfk c hc (by simpa using ((Bool.and_eq_true _ _).mp hcc).1))]
      simp
  · intro db novel_id step r novel nc dh sent hf hc hl hg hst
    exact endApi_failure db novel_id step r novel nc dh sent hf hc hl hg hst

/-- C6 witness: a failing start call on the empty store, and a failing end
call on the mid-workflow store. -/
theorem C6_start_end_failure_aborts_witness :
    NovelStartAPI.post ⟨[], [], [], [], [], []⟩ false false ⟨7, 2, 2⟩ ⟨500, Json.null⟩
        ⟨200, qPayloadA⟩
      = (⟨[⟨1, 7, 2, .draft, "", none, none⟩], [⟨1, 1, none, none, none, none, none⟩],
          [⟨1, 1, 1, 0, none⟩, ⟨2, 1, 1, 1, none⟩], [⟨1, 0, 0, 0⟩], [], []⟩,
          .exn .requestAIServerError) ∧
    statusOf ⟨[⟨1, 7, 2, .draft, "", none, none⟩], [⟨1, 1, none, none, none, none, none⟩],
        [⟨1, 1, 1, 0, none⟩, ⟨2, 1, 1, 1, none⟩], [⟨1, 0, 0, 0⟩], [], []⟩ 1 = some .draft ∧
    NovelEndAPI.post dbContinue 1 2 ⟨500, Json.null⟩
      = (dbContinue, .exn .requestAIServerError) := by
  have h1 := C6_start_end_failure_aborts.1 ⟨[], [], [], [], [], []⟩ ⟨7, 2, 2⟩
    ⟨500, Json.null⟩ ⟨200, qPayloadA⟩
    ⟨[⟨1, 7, 2, .draft, "", none, none⟩], [⟨1, 1, none, none, none, none, none⟩],
      [⟨1, 1, 1, 0, none⟩, ⟨2, 1, 1, 1, none⟩], [⟨1, 0, 0, 0⟩], [], []⟩
    ⟨1, 7, 2, .draft, "", none, none⟩ ⟨1, 1, none, none, none, none, none⟩
    [⟨1, 1, 1, 0, none⟩, ⟨2, 1, 1, 1, none⟩]
    rfl (by decide) (by simp)
  have h2 := C6_start_end_failure_aborts.2 dbContinue 1 2 ⟨500, Json.null⟩ novelP step2C
    qPayloadA _ rfl rfl novelP_loads rfl (by decide)
  exact ⟨h1.1, h1.2.1, h2⟩

/-! ### C9 -/

/-- C9: a successful End overwrites the targeted step's content with the
returned closing text and re-persists `Novel.prompt` as
`json.dumps(json.loads(prompt))`; by the serializer/parser round-trip the
JSON value stored in the prompt is exactly unchanged. -/
theorem C9_end_overwrites_content_and_roundtrips_prompt :
    ∀ (db : DB) (novel_id step : Nat) (r : AiResponse) (novel : Novel) (nc : NovelContent)
      (dh sent : Json) (ans : Option Json),
      DB.findNovel db novel_id = some novel →
      DB.findContent db novel_id step = some nc →
      Json.loads novel.prompt = some dh →
      Json.dictGetOrNull dh "dialog_history" = .ok sent →
      r.status_code = 200 →
      Json.dictGetOpt r.json "korean_answer" = .ok ans →
      (NovelEndAPI.post db novel_id step r).2 = .resp 200 { id := novel.id, story := ans } ∧
      DB.findContent (NovelEndAPI.post db novel_id step r).1 novel_id step
        = some { nc with content := ans } ∧
      promptOf (NovelEndAPI.post db novel_id step r).1 novel_id = some (Json.dumps dh) ∧
      (promptOf (NovelEndAPI.post db novel_id step r).1 novel_id).bind Json.loads
        = Json.loads novel.prompt := by
  intro db novel_id step r novel nc dh sent ans hf hc hl hg hst hko
  have heq := endApi_success db novel_id step r novel nc dh sent ans hf hc hl hg hst hko
  have hX : DB.findContent (DB.updateNovel db { novel with prompt := Json.dumps dh })
      novel_id step = some nc := hc
  have hP : promptOf (DB.updateContent
        (DB.updateNovel db { novel with prompt := Json.dumps dh })
        { nc with content := ans }) novel_id
      = promptOf (DB.updateNovel db { novel with prompt := Json.dumps dh }) novel_id := rfl
  refine ⟨by rw [heq], ?_, ?_, ?_⟩
  · rw [heq]
    dsimp only
    rw [findContent_updateContent, hX]
    simp
  · rw [heq]
    dsimp only
    rw [hP, promptOf_updateNovel, hf]
    simp
  · rw [heq]
    dsimp only
    rw [hP, promptOf_updateNovel, hf]
    simp [Json.loads_dumps, hl]

/-- C9 witness: a concrete successful End on the mid-workflow store. -/
theorem C9_end_overwrites_content_and_roundtrips_prompt_witness :
    (NovelEndAPI.post dbContinue 1 2 ⟨200, .obj [("korean_answer", .str "fin")]⟩).2
      = .resp 200 { id := novelP.id, story := some (.str "fin") } ∧
    DB.findContent (NovelEndAPI.post dbContinue 1 2 ⟨200, .obj [("korean_answer", .str "fin")]⟩).1
        1 2
      = some { step2C with content := some (.str "fin") } ∧
    promptOf (NovelEndAPI.post dbContinue 1 2 ⟨200, .obj [("korean_answer", .str "fin")]⟩).1 1
      = some (Json.dumps qPayloadA) ∧
    (promptOf (NovelEndAPI.post dbContinue 1 2
        ⟨200, .obj [("korean_answer", .str "fin")]⟩).1 1).bind Json.loads
      = Json.loads novelP.prompt :=
  C9_end_overwrites_content_and_roundtrips_prompt dbContinue 1 2
    ⟨200, .obj [("korean_answer", .str "fin")]⟩ novelP step2C qPayloadA _
    (some (.str "fin")) rfl rfl novelP_loads rfl rfl rfl

/-- C10: after every successful Start or Continue, `Novel.prompt` holds the
serialization of the *entire* question-call response (parsing it back
recovers the full payload with its queries, not the dialog history alone);
and a later Continue or End builds its upstream request by parsing
`Novel.prompt` and extracting its "dialog_history" member. -/
theorem C10_prompt_stores_entire_question_response :
    (∀ (db : DB) (req : StartRequest) (r1 r2 : AiResponse) (db1 : DB) (novel : Novel)
        (nc : NovelContent) (images : List NovelContentImage)
        (story rj1 dhv rj2 rj3 : Json) (caps : List Json)
        (images2 : List NovelContentImage) (next1 : NovelContent),
      NovelStartSerializer.save db req = (db1, novel, nc, images) →
      r1.status_code = 200 →
      Json.dictPop r1.json "korean_answer" = .ok (story, rj1) →
      Json.dictPop rj1 "dialog_history" = .ok (dhv, rj2) →
      r2.status_code = 200 →
      Json.dictPop rj2 "caption" = .ok (.arr caps, rj3) →
      assignCaptions images caps = .ok images2 →
      novel_content_with_query r2.json
          (get_next_novel_content { nc with content := some story } novel.id) = .ok next1 →
      promptOf (NovelStartAPI.post db false false req r1 r2).1 novel.id
          = some (Json.dumps r2.json) ∧
      (promptOf (NovelStartAPI.post db false false req r1 r2).1 novel.id).bind Json.loads
          = some r2.json) ∧
    (∀ (db : DB) (req : ContinueRequest) (r1 r2 : AiResponse) (db1 : DB) (novel : Novel)
        (nc : NovelContent) (img : NovelContentImage)
        (dh sent cap rj1 story rj2 dh2 rj3 : Json) (next1 : NovelContent),
      NovelContinueSerializer.save db req = .ok (db1, novel, nc, img) →
      Json.loads novel.prompt = some dh →
      Json.dictGetOrNull dh "dialog_history" = .ok sent →
      r1.status_code = 200 →
      Json.dictPop r1.json "caption" = .ok (cap, rj1) →
      Json.dictPop rj1 "korean_answer" = .ok (story, rj2) →
      Json.dictPop rj2 "dialog_history" = .ok (dh2, rj3) →
      r2.status_code = 200 →
      novel_content_with_query r2.json (get_next_novel_content
          { nc with content := some story, chosen_query := some req.selected_query }
          novel.id) = .ok next1 →
      promptOf (NovelContinueAPI.post db req r1 r2).1 req.novel_id
          = some (Json.dumps r2.json) ∧
      (promptOf (NovelContinueAPI.post db req r1 r2).1 req.novel_id).bind Json.loads
          = some r2.json) ∧
    (∀ (db : DB) (novel_id : Nat) (novel : Novel) (q sent sq : Json),
      DB.findNovel db novel_id = some novel →
      novel.prompt = Json.dumps q →
      Json.dictGetOrNull q "dialog_history" = .ok sent →
      sequence_request_data db novel_id sq = .ok (Json.dumps sq, Json.dumps sent) ∧
      end_request_data db novel_id = .ok (Json.dumps sent)) := by
  refine ⟨?_, ?_, ?_⟩
  · intro db req r1 r2 db1 novel nc images story rj1 dhv rj2 rj3 caps images2 next1
    intro hsv hst1 hp1 hp2 hq2 hp3 ha hw
    obtain ⟨hnovel, hnc, himgs, hn1, hc1, hi1, hs1⟩ :=
      startSave_elim db req db1 novel nc images hsv
    subst hnovel
    subst hnc
    subst himgs
    have heq := startApi_success db req r1 r2 db1 _ _ _ story rj1 dhv rj2 rj3 caps images2
      next1 hsv hst1 hp1 hp2 hq2 hp3 ha hw
    have hfn := startSave_findNew db req
    rw [hsv] at hfn
    dsimp only at hfn
    have hY : DB.findNovel
        (DB.updateContent
          (DB.insertContent
            (DB.updateContent (DB.updateImages db1 images2)
              ⟨DB.nextNovelId db, 1, some story, none, none, none, none⟩)
            (get_next_novel_content ⟨DB.nextNovelId db, 1, some story, none, none, none, none⟩
              (DB.nextNovelId db)))
          next1) (DB.nextNovelId db)
        = some ⟨DB.nextNovelId db, req.author, req.genre, .draft, "", none, none⟩ := hfn
    constructor
    · show promptOf (NovelStartAPI.post db false false req r1 r2).1 (DB.nextNovelId db)
          = some (Json.dumps r2.json)
      rw [heq]
      dsimp only
      rw [promptOf_updateNovel, hY]
      simp
    · show (promptOf (NovelStartAPI.post db false false req r1 r2).1
            (DB.nextNovelId db)).bind Json.loads = some r2.json
      rw [heq]
      dsimp only
      rw [promptOf_updateNovel, hY]
      simp [Json.loads_dumps]
  · intro db req r1 r2 db1 novel nc img dh sent cap rj1 story rj2 dh2 rj3 next1
    intro hsv hl hg hst1 hp1 hp2 hp3 hq2 hw
    have helim := continueSave_elim db req db1 novel nc img hsv
    have heq := continueApi_success db req r1 r2 db1 novel nc img dh sent cap rj1 story rj2
      dh2 rj3 next1 hsv hl hg hst1 hp1 hp2 hp3 hq2 hw
    have hY : DB.findNovel (DB.updateImage db1 { img with caption := some cap }) req.novel_id
        = some novel := by
      rw [helim.2.2]
      exact helim.1
    have hPP : promptOf (NovelContinueAPI.post db req r1 r2).1 req.novel_id
        = promptOf (DB.updateNovel (DB.updateImage db1 { img with caption := some cap })
          { novel with prompt := Json.dumps r2.json }) req.novel_id := by
      rw [heq]
      rfl
    constructor
    · rw [hPP, promptOf_updateNovel, hY]
      simp
    · rw [hPP, promptOf_updateNovel, hY]
      simp [Json.loads_dumps]
  · intro db novel_id novel q sent sq hf hprompt hg
    constructor
    · unfold sequence_request_data
      rw [hf]
      dsimp only
      rw [hprompt, Json.loads_dumps]
      dsimp only
      rw [hg]
    · unfold end_request_data
      rw [hf]
      dsimp only
      rw [hprompt, Json.loads_dumps]
      dsimp only
      rw [hg]

/-- C10 witness: the Continue success on the fixture store re-persists the
whole second question payload, and the fixture prompt feeds the extracted
dialog history into the sequence- and end-call request data. -/
theorem C10_prompt_stores_entire_question_response_witness :
    (promptOf (NovelContinueAPI.post dbContinue creq ⟨200, seqPayloadA⟩ ⟨200, qPayloadB⟩).1 1
      = some (Json.dumps qPayloadB) ∧
    (promptOf (NovelContinueAPI.post dbContinue creq ⟨200, seqPayloadA⟩
        ⟨200, qPayloadB⟩).1 1).bind Json.loads = some qPayloadB) ∧
    sequence_request_data dbContinue 1 (.str "Q2")
      = .ok (Json.dumps (.str "Q2"), Json.dumps (.arr [.str "h2"])) ∧
    end_request_data dbContinue 1 = .ok (Json.dumps (.arr [.str "h2"])) := by
  have h2 := C10_prompt_stores_entire_question_response.2.1 dbContinue creq
    ⟨200, seqPayloadA⟩ ⟨200, qPayloadB⟩ dbContinue1 novelP step2C imgC qPayloadA _ _ _ _ _ _ _
    ⟨1, 3, none, none, some (.str "R1"), some (.str "R2"), some (.str "R3")⟩
    dbContinue_save novelP_loads rfl rfl rfl rfl rfl rfl rfl
  have h3 := C10_prompt_stores_entire_question_response.2.2 dbContinue 1 novelP qPayloadA
    (.arr [.str "h2"]) (.str "Q2") rfl rfl rfl
  exact ⟨h2, h3.1, h3.2⟩
